import Mathlib

set_option maxHeartbeats 1000000
set_option linter.unusedVariables false

/-!
Verification of the RIOT DWC2 USB device driver
(`drivers/usbdev_synopsys_dwc2/usbdev_synopsys_dwc2.c`).

The development is a shallow embedding of the driver: the peripheral's
register surface is a record of natural-number register values (with the
real STM32 bit layouts, registers kept below `2 ^ 32`), hardware
side effects that the C code only observes through busy-waits (FIFO
flushes, global-NAK handshakes, endpoint-disable completion) are modelled
by their documented post-state, and externally visible side effects
(callbacks to the upper stack, FIFO flush commands) are collected in an
action trace.  Numeric literals are the values of the corresponding
`USB_OTG_*` macros from the vendor header, noted in comments.
-/

/-- Endpoint direction (`usb_ep_dir_t`): `USB_EP_DIR_IN` / `USB_EP_DIR_OUT`. -/
inductive Dir | din | dout
deriving DecidableEq

/-- Endpoint type (`usb_ep_type_t`).  `EpType.none` is `USB_EP_TYPE_NONE`,
the "unassigned" marker. -/
inductive EpType | none | control | iso | bulk | interrupt
deriving DecidableEq

/-- Endpoint context (`usbdev_ep_t`): endpoint number, direction, negotiated
type (source field `type`) and negotiated maximum packet length. -/
structure EpCtx where
  num : Nat
  dir : Dir
  ty : EpType
  len : Nat
deriving DecidableEq

/-- Static configuration of one peripheral instance
(`dwc2_usb_otg_fshs_config_t` together with the compile-time switches).
`totalFifoSize` is in bytes (`DWC2_USB_OTG_*_TOTAL_FIFO_SIZE`),
`rxFifoSize` in words (`DWC2_USB_OTG_*_RX_FIFO_SIZE`), `usesDma` is
`_uses_dma`, `cid1x` is `defined(STM32_USB_OTG_CID_1x)` and `dmaAlign` is
`USBDEV_CPU_DMA_ALIGNMENT`. -/
structure Cfg where
  maxEp : Nat
  totalFifoSize : Nat
  rxFifoSize : Nat
  usesDma : Bool
  cid1x : Bool
  dmaAlign : Nat

/-- Consumer-visible events (`usbdev_event_t`). -/
inductive Ev | rst | susp | resume | trComplete | esrEv
deriving DecidableEq

/-- Observable actions of the driver: FIFO flush commands issued to the
hardware, pushes of a packet into a transmit FIFO, and the two callback
channels (`usbdev->cb` and `usbdev->epcb`). -/
inductive Act
  | flushRx
  | flushTx (n : Nat)
  | fifoWrite (num words : Nat)
  | cb (e : Ev)
  | epcb (num : Nat) (d : Dir) (e : Ev)
deriving DecidableEq

/-- The mutable state of one peripheral instance: the register surface used
by the driver plus the fields of `dwc2_usb_otg_fshs_t` and the out-endpoint
buffers.  Per-endpoint register banks are modelled as functions from the
endpoint number.  `grxstsr` is the receive-status queue (head = the value
`GRXSTSR` peeks and `GRXSTSP` pops), `rxWords` the receive-FIFO data words,
`mem` word-addressed system memory. -/
structure DevState where
  gahbcfg : Nat
  gintsts : Nat
  grstctl : Nat
  grxfsiz : Nat
  dieptxf0 : Nat
  dieptxf : Nat → Nat
  grxstsr : List Nat
  rxWords : List Nat
  dcfg : Nat
  dctl : Nat
  daint : Nat
  daintmsk : Nat
  diepempmsk : Nat
  diepctl : Nat → Nat
  dieptsiz : Nat → Nat
  diepdma : Nat → Nat
  diepint : Nat → Nat
  doepctl : Nat → Nat
  doeptsiz : Nat → Nat
  doepdma : Nat → Nat
  doepint : Nat → Nat
  pcgcctl : Nat
  suspend : Bool
  fifoPos : Nat
  epIn : Nat → EpCtx
  epOut : Nat → EpCtx
  outBuf : Nat → Nat
  mem : Nat → Nat

/-- All-ones 32-bit mask. -/
def mask32 : Nat := 0xFFFFFFFF

/-- Complement of a mask within 32 bits (`~mask` on a `uint32_t`). -/
def compl32 (m : Nat) : Nat := mask32 ^^^ m

/-- `_type_to_reg`: endpoint type to the `EPTYP` register field
(`DWC2_USB_OTG_EP_TYPE_*`, shifted to `USB_OTG_DOEPCTL_EPTYP_Pos = 18`).
The C function asserts on an unknown type and falls through returning 0;
the `EpType.none` case is that fallthrough value. -/
def typeToReg : EpType → Nat
  | EpType.control => 0x00 <<< 18
  | EpType.iso => 0x01 <<< 18
  | EpType.bulk => 0x02 <<< 18
  | EpType.interrupt => 0x03 <<< 18
  | EpType.none => 0

/-- `_ep0_size`: maximum-packet-size encoding for endpoint 0
(`DWC2_USB_OTG_EP0_SIZE_*`); asserts (here: 0) on other values. -/
def ep0Size (l : Nat) : Nat :=
  if l = 64 then 0x0
  else if l = 32 then 0x1
  else if l = 16 then 0x2
  else if l = 8 then 0x3
  else 0

/-!  FIFO allocator (`_configure_fifo` / `_configure_tx_fifo`). -/

/-- Result of an operation whose C original contains an `assert`: `ok =
false` means the assertion fired and `st` is the state at that moment
(the C program terminates there). -/
structure ARes where
  ok : Bool
  st : DevState

/-- Total FIFO capacity in 32-bit words
(`_total_fifo_size(conf) / sizeof(uint32_t)`). -/
def totalFifoWords (cfg : Cfg) : Nat := cfg.totalFifoSize / 4

/-- `_configure_tx_fifo(usbdev, num, len)`: round the request up to a word
boundary with a 16-word (`DWC2_USB_OTG_FIFO_MIN_WORD_SIZE`) floor, assert
that the cumulative allocation fits the total FIFO size, then program
`DIEPTXF[num-1]` with size (at `USB_OTG_TX0FD_Pos = 16`) and offset and
advance the cursor.  `txWordlen` is the local variable `wordlen`. -/
def txWordlen (len : Nat) : Nat :=
  if len < 16 * 4 then 16 else (len + 3) / 4

/-- Body of `_configure_tx_fifo` (see `txWordlen` above for the rounding). -/
def configureTxFifo (cfg : Cfg) (s : DevState) (num len : Nat) : ARes :=
  if s.fifoPos + txWordlen len ≤ cfg.totalFifoSize / 4 then
    ⟨true,
     { s with
        dieptxf := Function.update s.dieptxf (num - 1)
          ((txWordlen len <<< 16) ||| s.fifoPos),
        fifoPos := s.fifoPos + txWordlen len }⟩
  else
    ⟨false, s⟩

/-- `_configure_fifo(usbdev)`: program the fixed receive-FIFO size
(`GRXFSIZ`, field mask `USB_OTG_GRXFSIZ_RXFD = 0xFFFF`), the dedicated
endpoint-0 IN bank (`DIEPTXF0_HNPTXFSIZ`) and reset the allocation cursor
to "receive size + one minimum bank". -/
def configureFifo (cfg : Cfg) (s : DevState) : DevState :=
  let rx := cfg.rxFifoSize
  { s with
      grxfsiz := (s.grxfsiz &&& compl32 0xFFFF) ||| rx,
      dieptxf0 := (16 <<< 16) ||| rx,
      fifoPos := rx + 16 }

/-- Run a sequence of TX-FIFO allocation requests `(num, len)`; a failed
assertion terminates the program, so the run stops there. -/
def runTxAllocs (cfg : Cfg) (s : DevState) : List (Nat × Nat) → DevState
  | [] => s
  | (num, len) :: rest =>
    if (configureTxFifo cfg s num len).ok
    then runTxAllocs cfg (configureTxFifo cfg s num len).st rest
    else (configureTxFifo cfg s num len).st

/-- A sample configuration: the STM32 full-speed core
(`DWC2_USB_OTG_FS_TOTAL_FIFO_SIZE = 1280` bytes, RX FIFO 128 words,
4 endpoints, no DMA, CID 1x). -/
def cfg0 : Cfg := ⟨4, 1280, 128, false, true, 4⟩

/-- A zeroed device state (the static storage `_usbdevs[i]` before use). -/
def st0 : DevState where
  gahbcfg := 0
  gintsts := 0
  grstctl := 0
  grxfsiz := 0
  dieptxf0 := 0
  dieptxf := fun _ => 0
  grxstsr := []
  rxWords := []
  dcfg := 0
  dctl := 0
  daint := 0
  daintmsk := 0
  diepempmsk := 0
  diepctl := fun _ => 0
  dieptsiz := fun _ => 0
  diepdma := fun _ => 0
  diepint := fun _ => 0
  doepctl := fun _ => 0
  doeptsiz := fun _ => 0
  doepdma := fun _ => 0
  doepint := fun _ => 0
  pcgcctl := 0
  suspend := false
  fifoPos := 0
  epIn := fun i => ⟨i, Dir.din, EpType.none, 0⟩
  epOut := fun i => ⟨i, Dir.dout, EpType.none, 0⟩
  outBuf := fun _ => 0
  mem := fun _ => 0

/-- Basic facts about a single `_configure_tx_fifo` call: on success the
new cursor is within capacity, on assertion failure the state is exactly
the entry state. -/
theorem configureTxFifo_spec (cfg : Cfg) (s : DevState) (num len : Nat) :
    ((configureTxFifo cfg s num len).ok = true →
      (configureTxFifo cfg s num len).st.fifoPos ≤ cfg.totalFifoSize / 4) ∧
    ((configureTxFifo cfg s num len).ok = false →
      (configureTxFifo cfg s num len).st = s) := by
  simp only [configureTxFifo]
  split
  · rename_i h
    exact ⟨fun _ => h, fun hf => by simp at hf⟩
  · exact ⟨fun ht => by simp at ht, fun _ => rfl⟩

/-- After any run of TX-FIFO allocations the cursor either never moved or
stays within the total capacity. -/
theorem runTxAllocs_fifoPos (cfg : Cfg) :
    ∀ (reqs : List (Nat × Nat)) (s : DevState),
      (runTxAllocs cfg s reqs).fifoPos = s.fifoPos ∨
      (runTxAllocs cfg s reqs).fifoPos ≤ cfg.totalFifoSize / 4 := by
  intro reqs
  induction reqs with
  | nil => intro s; exact Or.inl rfl
  | cons hd tl ih =>
    intro s
    obtain ⟨num, len⟩ := hd
    simp only [runTxAllocs]
    by_cases hok : (configureTxFifo cfg s num len).ok = true
    · rw [if_pos hok]
      rcases ih (configureTxFifo cfg s num len).st with h | h
      · right
        rw [h]
        exact (configureTxFifo_spec cfg s num len).1 hok
      · exact Or.inr h
    · rw [if_neg hok]
      rw [(configureTxFifo_spec cfg s num len).2 (Bool.eq_false_iff.mpr hok)]
      exact Or.inl rfl

/-- C1: starting from the `_configure_fifo` initial state, the cumulative
number of transmit-FIFO words handed out by `_configure_tx_fifo` (each
request rounded up to a word boundary and raised to the 16-word minimum)
never exceeds the instance's total FIFO capacity in words; and a request
that fails the capacity assertion terminates before the FIFO-configuration
register or the cursor is touched: the state at the assertion failure is
exactly the entry state. -/
theorem C1_tx_fifo_capacity (cfg : Cfg) (s : DevState)
    (reqs : List (Nat × Nat)) :
    (runTxAllocs cfg (configureFifo cfg s) reqs).fifoPos
        - (configureFifo cfg s).fifoPos ≤ totalFifoWords cfg
    ∧ (∀ (t : DevState) (num len : Nat),
        (configureTxFifo cfg t num len).ok = false →
        (configureTxFifo cfg t num len).st = t) := by
  constructor
  · rcases runTxAllocs_fifoPos cfg reqs (configureFifo cfg s) with h | h
    · rw [h]
      simp [totalFifoWords]
    · calc (runTxAllocs cfg (configureFifo cfg s) reqs).fifoPos
          - (configureFifo cfg s).fifoPos
          ≤ (runTxAllocs cfg (configureFifo cfg s) reqs).fifoPos :=
            Nat.sub_le _ _
      _ ≤ totalFifoWords cfg := h
  · intro t num len h
    exact (configureTxFifo_spec cfg t num len).2 h

/-- Witness for C1 at concrete inputs: with the full-speed configuration
(320-word capacity, cursor starting at 144) a 100-byte then 4000-byte
allocation sequence stays within capacity (the second request trips the
assertion and the run stops), and an oversized request leaves the state
untouched. -/
theorem C1_tx_fifo_capacity_witness :
    ((runTxAllocs cfg0 (configureFifo cfg0 st0) [(1, 100), (2, 4000)]).fifoPos
        - (configureFifo cfg0 st0).fifoPos ≤ totalFifoWords cfg0)
    ∧ (configureTxFifo cfg0 (configureFifo cfg0 st0) 1 99999).ok = false
    ∧ (configureTxFifo cfg0 (configureFifo cfg0 st0) 1 99999).st
        = configureFifo cfg0 st0 :=
  ⟨(C1_tx_fifo_capacity cfg0 st0 [(1, 100), (2, 4000)]).1,
   by decide,
   (C1_tx_fifo_capacity cfg0 st0 []).2 (configureFifo cfg0 st0) 1 99999
     (by decide)⟩

/-!  Hardware choreography helpers.

Busy-waits on hardware acknowledgment bits are modelled by their
documented post-state: a handshake that waits for the hardware to set or
clear a status bit produces the state with that bit in its final value. -/

/-- `_enable_global_in_nak`: no-op when `DCTL.GINSTS` (bit 2) is already
set, otherwise set `SGINAK` (bit 7) and wait for `GINSTS`. -/
def enableGlobalInNak (s : DevState) : DevState :=
  if s.dctl.testBit 2 then s
  else { s with dctl := (s.dctl ||| (1 <<< 7)) ||| (1 <<< 2) }

/-- `_disable_global_in_nak`: no-op when `GINSTS` is already clear,
otherwise set `CGINAK` (bit 8) and wait for `GINSTS` to clear. -/
def disableGlobalInNak (s : DevState) : DevState :=
  if s.dctl.testBit 2 then
    { s with dctl := (s.dctl ||| (1 <<< 8)) &&& compl32 (1 <<< 2) }
  else s

/-- `_enable_global_out_nak`: `GONSTS` is bit 3, `SGONAK` bit 9. -/
def enableGlobalOutNak (s : DevState) : DevState :=
  if s.dctl.testBit 3 then s
  else { s with dctl := (s.dctl ||| (1 <<< 9)) ||| (1 <<< 3) }

/-- `_disable_global_out_nak`: `CGONAK` is bit 10. -/
def disableGlobalOutNak (s : DevState) : DevState :=
  if s.dctl.testBit 3 then
    { s with dctl := (s.dctl ||| (1 <<< 10)) &&& compl32 (1 <<< 3) }
  else s

/-- `_disable_global_nak`: release both directions. -/
def disableGlobalNak (s : DevState) : DevState :=
  disableGlobalOutNak (disableGlobalInNak s)

/-- `_flush_tx_fifo(conf, n)`: select the FIFO in `GRSTCTL.TXFNUM`
(mask `0x7C0`, position 6), request `TXFFLSH` (bit 5) and wait for the
hardware to clear it; `n = 0x10` flushes all FIFOs. -/
def flushTxFifo (s : DevState) (n : Nat) : DevState × List Act :=
  ({ s with grstctl :=
      (((s.grstctl &&& compl32 0x7C0) ||| (n <<< 6)) ||| (1 <<< 5))
        &&& compl32 (1 <<< 5) },
   [Act.flushTx n])

/-- `_flush_rx_fifo(conf)`: request `RXFFLSH` (bit 4) and wait for the
hardware to clear it. -/
def flushRxFifo (s : DevState) : DevState × List Act :=
  ({ s with grstctl := (s.grstctl ||| (1 <<< 4)) &&& compl32 (1 <<< 4) },
   [Act.flushRx])

/-- `_ep_in_disable(conf, num)`: only if the endpoint is enabled
(`DIEPCTL.EPENA`, bit 31): global IN NAK, flush the endpoint's TX FIFO,
write `EPDIS | SNAK` (bits 30, 27) to `DIEPCTL`, wait for the hardware to
clear `EPDIS`, release global IN NAK. -/
def epInDisable (s : DevState) (num : Nat) : DevState × List Act :=
  if (s.diepctl num).testBit 31 then
    let s1 := enableGlobalInNak s
    let s2 := (flushTxFifo s1 num).1
    let v3 := ((1 <<< 30) ||| (1 <<< 27)) &&& compl32 (1 <<< 30)
    let s3 := { s2 with diepctl := Function.update s2.diepctl num v3 }
    (disableGlobalInNak s3, (flushTxFifo s1 num).2)
  else (s, [])

/-- `_ep_out_disable(conf, num)`: as the IN sequence but with the OUT
global NAK pair and no FIFO flush. -/
def epOutDisable (s : DevState) (num : Nat) : DevState × List Act :=
  if (s.doepctl num).testBit 31 then
    let s1 := enableGlobalOutNak s
    let v2 := ((1 <<< 30) ||| (1 <<< 27)) &&& compl32 (1 <<< 30)
    let s2 := { s1 with doepctl := Function.update s1.doepctl num v2 }
    (disableGlobalOutNak s2, [])
  else (s, [])

/-- `_set_address(usbdev, address)`: program `DCFG.DAD`
(mask `0x7F0`, position 4). -/
def setAddress (s : DevState) (address : Nat) : DevState :=
  { s with dcfg := (s.dcfg &&& compl32 0x7F0) ||| (address <<< 4) }

/-- `_usb_attach`: clear the soft-disconnect bit `DCTL.SDIS` (bit 1). -/
def usbAttach (s : DevState) : DevState :=
  { s with dctl := s.dctl &&& compl32 (1 <<< 1) }

/-- `_usb_detach`: set `DCTL.SDIS`. -/
def usbDetach (s : DevState) : DevState :=
  { s with dctl := s.dctl ||| (1 <<< 1) }

/-- `_sleep_periph`: gate the USB clock (`PCGCCTL.STOPCLK`, bit 0); the
platform power-management calls have no observable state here. -/
def sleepPeriph (s : DevState) : DevState :=
  { s with pcgcctl := s.pcgcctl ||| 1 }

/-- `_wake_periph`: ungate the clock, then flush the receive FIFO and all
transmit FIFOs. -/
def wakePeriph (s : DevState) : DevState × List Act :=
  let s1 := { s with pcgcctl := s.pcgcctl &&& compl32 1 }
  let p1 := flushRxFifo s1
  let p2 := flushTxFifo p1.1 0x10
  (p2.1, p1.2 ++ p2.2)

/-- One iteration of the `_reset_eps` loop: set `SNAK` (bit 27) on the OUT
and IN control registers of endpoint `i` and program the IN endpoint's
`TXFNUM` field (position 22) with `i`. -/
def resetEpsStep (s : DevState) (i : Nat) : DevState :=
  let s1 := { s with doepctl := Function.update s.doepctl i (s.doepctl i ||| (1 <<< 27)) }
  let s2 := { s1 with diepctl := Function.update s1.diepctl i (s1.diepctl i ||| (1 <<< 27)) }
  { s2 with diepctl := Function.update s2.diepctl i (s2.diepctl i ||| (i <<< 22)) }

/-- The `_reset_eps` loop over endpoints `0 ≤ i < n`, in ascending order. -/
def resetEpsAux (s : DevState) : Nat → DevState
  | 0 => s
  | n + 1 => resetEpsStep (resetEpsAux s n) n

/-- `_reset_eps(usbdev)`. -/
def resetEps (cfg : Cfg) (s : DevState) : DevState :=
  resetEpsAux s cfg.maxEp

/-!  Device-level event state machine (`_usbdev_esr`). -/

/-- The branch part of `_usbdev_esr`: reads `GINTSTS` once, handles at most
one condition (priority `ENUMDNE` bit 13, `USBRST` bit 12, `SRQINT` bit 30,
`USBSUSP` bit 11, `WKUINT` bit 31) and returns the new state, the `event`
flag to acknowledge, and the emitted actions. -/
def esrCore (cfg : Cfg) (s : DevState) : DevState × Nat × List Act :=
  if s.gintsts.testBit 13 then
    (s, 1 <<< 13, [Act.cb Ev.rst])
  else if s.gintsts.testBit 12 then
    let p := if s.suspend then wakePeriph { s with suspend := false }
             else (s, [])
    let p1 := flushRxFifo p.1
    let p2 := flushTxFifo p1.1 0x10
    let s3 := resetEps cfg p2.1
    let s4 := setAddress s3 0
    (s4, 1 <<< 12, p.2 ++ p1.2 ++ p2.2)
  else if s.gintsts.testBit 30 then
    (s, 1 <<< 30, [])
  else if s.gintsts.testBit 11 then
    if s.suspend = false then
      (sleepPeriph { s with suspend := true }, 1 <<< 11, [Act.cb Ev.susp])
    else (s, 1 <<< 11, [])
  else if s.gintsts.testBit 31 then
    if s.suspend then
      let p := wakePeriph { s with suspend := false }
      (p.1, 1 <<< 31, p.2 ++ [Act.cb Ev.resume])
    else (s, 1 <<< 31, [])
  else (s, 0, [])

/-- `_usbdev_esr(dev)`: run the branch part, acknowledge the handled flag
in `GINTSTS` (write-one-to-clear) and re-enable `GAHBCFG.GINT` (bit 0). -/
def usbdevEsr (cfg : Cfg) (s : DevState) : DevState × List Act :=
  let c := esrCore cfg s
  ({ c.1 with
      gintsts := c.1.gintsts &&& compl32 c.2.1,
      gahbcfg := c.1.gahbcfg ||| 1 },
   c.2.2)

/-!  Projection lemmas for the state-machine helpers. -/

@[simp] theorem usbdevEsr_acts (cfg : Cfg) (s : DevState) :
    (usbdevEsr cfg s).2 = (esrCore cfg s).2.2 := rfl

@[simp] theorem usbdevEsr_doepctl (cfg : Cfg) (s : DevState) :
    (usbdevEsr cfg s).1.doepctl = (esrCore cfg s).1.doepctl := rfl

@[simp] theorem usbdevEsr_diepctl (cfg : Cfg) (s : DevState) :
    (usbdevEsr cfg s).1.diepctl = (esrCore cfg s).1.diepctl := rfl

@[simp] theorem usbdevEsr_dcfg (cfg : Cfg) (s : DevState) :
    (usbdevEsr cfg s).1.dcfg = (esrCore cfg s).1.dcfg := rfl

@[simp] theorem usbdevEsr_suspend (cfg : Cfg) (s : DevState) :
    (usbdevEsr cfg s).1.suspend = (esrCore cfg s).1.suspend := rfl

@[simp] theorem usbdevEsr_gahbcfg (cfg : Cfg) (s : DevState) :
    (usbdevEsr cfg s).1.gahbcfg = (esrCore cfg s).1.gahbcfg ||| 1 := rfl

@[simp] theorem resetEpsAux_dcfg (s : DevState) (n : Nat) :
    (resetEpsAux s n).dcfg = s.dcfg := by
  induction n with
  | zero => rfl
  | succ n ih => simp [resetEpsAux, resetEpsStep, ih]

@[simp] theorem resetEpsAux_suspend (s : DevState) (n : Nat) :
    (resetEpsAux s n).suspend = s.suspend := by
  induction n with
  | zero => rfl
  | succ n ih => simp [resetEpsAux, resetEpsStep, ih]

@[simp] theorem resetEpsAux_gahbcfg (s : DevState) (n : Nat) :
    (resetEpsAux s n).gahbcfg = s.gahbcfg := by
  induction n with
  | zero => rfl
  | succ n ih => simp [resetEpsAux, resetEpsStep, ih]

/-- After the `_reset_eps` loop over `n` endpoints every visited OUT
control register has `SNAK` (bit 27) set. -/
theorem resetEpsAux_doepctl_snak (s : DevState) (n i : Nat) (h : i < n) :
    ((resetEpsAux s n).doepctl i).testBit 27 = true := by
  induction n with
  | zero => omega
  | succ n ih =>
    simp only [resetEpsAux, resetEpsStep]
    rcases Nat.lt_succ_iff_lt_or_eq.mp h with h' | rfl
    · simpa [Function.update_noteq (by omega : i ≠ n)] using ih h'
    · simp only [Function.update_same, Nat.testBit_or]
      simp
      exact Or.inr (by decide)

/-- After the `_reset_eps` loop every visited IN control register has
`SNAK` (bit 27) set. -/
theorem resetEpsAux_diepctl_snak (s : DevState) (n i : Nat) (h : i < n) :
    ((resetEpsAux s n).diepctl i).testBit 27 = true := by
  induction n with
  | zero => omega
  | succ n ih =>
    simp only [resetEpsAux, resetEpsStep]
    rcases Nat.lt_succ_iff_lt_or_eq.mp h with h' | rfl
    · simpa [Function.update_noteq (by omega : i ≠ n)] using ih h'
    · simp only [Function.update_same, Nat.testBit_or]
      simp
      exact Or.inl (Or.inr (by decide))

/-- Masking with the 32-bit complement of a mask clears the masked field. -/
theorem land_compl32_7F0 (x : Nat) : (x &&& compl32 0x7F0) &&& 0x7F0 = 0 := by
  rw [Nat.and_assoc]
  have : compl32 0x7F0 &&& 0x7F0 = 0 := by decide
  rw [this, Nat.and_zero]

/-- Shape of `_usbdev_esr`'s branch part when the reset-start interrupt is
pending and enumeration-done is not: wake the peripheral if suspended, then
flush the receive FIFO, flush all transmit FIFOs, re-arm all endpoints'
NAK and clear the device address. -/
theorem esrCore_reset_eq (cfg : Cfg) (s : DevState)
    (h13 : s.gintsts.testBit 13 = false) (h12 : s.gintsts.testBit 12 = true) :
    esrCore cfg s =
      (setAddress (resetEps cfg
          (flushTxFifo (flushRxFifo
            (if s.suspend then (wakePeriph { s with suspend := false }).1
             else s)).1 0x10).1) 0,
       1 <<< 12,
       (if s.suspend then (wakePeriph { s with suspend := false }).2 else [])
         ++ [Act.flushRx] ++ [Act.flushTx 0x10]) := by
  simp only [esrCore, h13, h12]
  by_cases hs : s.suspend <;>
    simp [hs, flushRxFifo, flushTxFifo]

/-- C2: whenever the device-level event handler runs with the bus-reset
start flag (`GINTSTS.USBRST`, bit 12) set and enumeration-done
(`GINTSTS.ENUMDNE`, bit 13) clear, it flushes the receive FIFO, flushes
all transmit FIFOs (`0x10`), sets `SNAK` on every IN and OUT endpoint of
the instance and clears the device address field to 0.  The statement
quantifies over every state `s`, so it holds in particular for both values
of the suspend flag. -/
theorem C2_bus_reset_start (cfg : Cfg) (s : DevState)
    (h12 : s.gintsts.testBit 12 = true) (h13 : s.gintsts.testBit 13 = false) :
    Act.flushRx ∈ (usbdevEsr cfg s).2 ∧
    Act.flushTx 0x10 ∈ (usbdevEsr cfg s).2 ∧
    (∀ i, i < cfg.maxEp →
      ((usbdevEsr cfg s).1.doepctl i).testBit 27 = true ∧
      ((usbdevEsr cfg s).1.diepctl i).testBit 27 = true) ∧
    (usbdevEsr cfg s).1.dcfg &&& 0x7F0 = 0 := by
  simp only [usbdevEsr_acts, usbdevEsr_doepctl, usbdevEsr_diepctl,
    usbdevEsr_dcfg, esrCore_reset_eq cfg s h13 h12]
  refine ⟨by simp, by simp, fun i hi => ⟨?_, ?_⟩, ?_⟩
  · simpa [setAddress, resetEps] using
      resetEpsAux_doepctl_snak _ cfg.maxEp i hi
  · simpa [setAddress, resetEps] using
      resetEpsAux_diepctl_snak _ cfg.maxEp i hi
  · simp only [setAddress, resetEps, resetEpsAux_dcfg, Nat.zero_shiftLeft,
      Nat.or_zero]
    exact land_compl32_7F0 _

/-- Witness for C2 at a concrete input: a previously suspended instance
with only `USBRST` pending flushes both FIFO directions, NAKs endpoint 1
in both directions and ends with device address 0. -/
theorem C2_bus_reset_start_witness :
    Act.flushRx ∈ (usbdevEsr cfg0 { st0 with gintsts := 1 <<< 12, suspend := true }).2 ∧
    Act.flushTx 0x10 ∈ (usbdevEsr cfg0 { st0 with gintsts := 1 <<< 12, suspend := true }).2 ∧
    ((usbdevEsr cfg0 { st0 with gintsts := 1 <<< 12, suspend := true }).1.doepctl 1).testBit 27 = true ∧
    ((usbdevEsr cfg0 { st0 with gintsts := 1 <<< 12, suspend := true }).1.diepctl 1).testBit 27 = true ∧
    (usbdevEsr cfg0 { st0 with gintsts := 1 <<< 12, suspend := true }).1.dcfg &&& 0x7F0 = 0 :=
  ⟨(C2_bus_reset_start cfg0 _ (by decide) (by decide)).1,
   (C2_bus_reset_start cfg0 _ (by decide) (by decide)).2.1,
   ((C2_bus_reset_start cfg0 _ (by decide) (by decide)).2.2.1 1 (by decide)).1,
   ((C2_bus_reset_start cfg0 _ (by decide) (by decide)).2.2.1 1 (by decide)).2,
   (C2_bus_reset_start cfg0 _ (by decide) (by decide)).2.2.2⟩

/-!  Traces of repeated `_usbdev_esr` invocations (for the suspend/resume
discipline).  Each step models the hardware presenting an interrupt status
word `g` in `GINTSTS` and the driver's handler running once. -/

/-- Run `_usbdev_esr` once per presented interrupt-status word, recording
for each invocation the status word and the emitted actions. -/
def esrRun (cfg : Cfg) (s : DevState) : List Nat → List (Nat × List Act)
  | [] => []
  | g :: gs =>
    (g, (usbdevEsr cfg { s with gintsts := g }).2) ::
      esrRun cfg (usbdevEsr cfg { s with gintsts := g }).1 gs

/-- An invocation that delivered the SUSPEND event. -/
abbrev stepSusp (p : Nat × List Act) : Prop := Act.cb Ev.susp ∈ p.2

/-- An invocation that delivered RESUME, or one that took the
bus-reset-start branch (reset flag set, enumeration-done clear). -/
abbrev stepClear (p : Nat × List Act) : Prop :=
  Act.cb Ev.resume ∈ p.2 ∨
  (p.1.testBit 13 = false ∧ p.1.testBit 12 = true)

/-- A SUSPEND delivery happens only with the suspend flag clear, and sets
the flag in the same invocation. -/
theorem esrCore_susp_imp (cfg : Cfg) (s : DevState)
    (h : Act.cb Ev.susp ∈ (esrCore cfg s).2.2) :
    s.suspend = false ∧ (esrCore cfg s).1.suspend = true := by
  simp only [esrCore] at h ⊢
  split_ifs at h ⊢ with h13 h12 h30 h11 hsf h31 hsw
  all_goals
    simp_all [wakePeriph, flushRxFifo, flushTxFifo, sleepPeriph]

/-- While suspended, an invocation either stays suspended, delivers
RESUME, or is the bus-reset-start branch. -/
theorem esrCore_suspend_true (cfg : Cfg) (s : DevState)
    (h : s.suspend = true) :
    (esrCore cfg s).1.suspend = true ∨
    Act.cb Ev.resume ∈ (esrCore cfg s).2.2 ∨
    (s.gintsts.testBit 13 = false ∧ s.gintsts.testBit 12 = true) := by
  simp only [esrCore]
  split_ifs with h13 h12 h30 h11 hsf h31
  · exact Or.inl h
  · exact Or.inr (Or.inr ⟨by simpa using h13, h12⟩)
  · exact Or.inl h
  · exact absurd h (by simp [hsf])
  · exact Or.inl h
  · exact Or.inr (Or.inl (by simp [wakePeriph, flushRxFifo, flushTxFifo]))
  · exact Or.inl h

/-- From a suspended state, the first SUSPEND delivery in a trace is
preceded by a RESUME delivery or a bus-reset-start invocation. -/
theorem esrRun_suspended (cfg : Cfg) :
    ∀ (gs : List Nat) (s : DevState), s.suspend = true →
    ∀ (pre : List (Nat × List Act)) (b : Nat × List Act)
      (post : List (Nat × List Act)),
      esrRun cfg s gs = pre ++ b :: post → stepSusp b →
      ∃ c ∈ pre, stepClear c := by
  intro gs
  induction gs with
  | nil =>
    intro s _ pre b post hrun _
    exact absurd hrun (by cases pre <;> simp [esrRun])
  | cons g gs ih =>
    intro s hs pre b post hrun hb
    simp only [esrRun] at hrun
    cases pre with
    | nil =>
      simp only [List.nil_append] at hrun
      obtain ⟨hbe, _⟩ := List.cons.inj hrun
      rw [← hbe] at hb
      have hmem : Act.cb Ev.susp ∈ (esrCore cfg { s with gintsts := g }).2.2 := by
        simpa [stepSusp] using hb
      have := (esrCore_susp_imp cfg { s with gintsts := g } hmem).1
      simp only [show ({ s with gintsts := g } : DevState).suspend = s.suspend
        from rfl] at this
      rw [hs] at this
      exact absurd this (by simp)
    | cons p pre' =>
      obtain ⟨hp, htail⟩ := List.cons.inj hrun
      have hs' : ({ s with gintsts := g } : DevState).suspend = true := hs
      rcases esrCore_suspend_true cfg { s with gintsts := g } hs'
        with h1 | h2 | h3
      · obtain ⟨c, hc, hcc⟩ :=
          ih (usbdevEsr cfg { s with gintsts := g }).1 (by simpa using h1)
            pre' b post htail hb
        exact ⟨c, List.mem_cons_of_mem _ hc, hcc⟩
      · refine ⟨p, List.mem_cons_self _ _, ?_⟩
        rw [← hp]
        exact Or.inl (by simpa using h2)
      · refine ⟨p, List.mem_cons_self _ _, ?_⟩
        rw [← hp]
        exact Or.inr h3

/-- C4: along every sequence of `_usbdev_esr` invocations, two SUSPEND
deliveries are always separated by a RESUME delivery or by an invocation
that took the bus-reset-start branch: the handler raises SUSPEND only when
the suspend flag is false and sets the flag in the same invocation, and
only the wake path and the reset-start path clear the flag. -/
theorem C4_no_double_suspend (cfg : Cfg) :
    ∀ (gs : List Nat) (s : DevState) (pre : List (Nat × List Act))
      (a : Nat × List Act) (mid : List (Nat × List Act))
      (b : Nat × List Act) (post : List (Nat × List Act)),
      esrRun cfg s gs = pre ++ a :: (mid ++ b :: post) →
      stepSusp a → stepSusp b → ∃ c ∈ mid, stepClear c := by
  intro gs
  induction gs with
  | nil =>
    intro s pre a mid b post hrun _ _
    exact absurd hrun (by cases pre <;> simp [esrRun])
  | cons g gs ih =>
    intro s pre a mid b post hrun ha hb
    simp only [esrRun] at hrun
    cases pre with
    | nil =>
      simp only [List.nil_append] at hrun
      obtain ⟨hae, htail⟩ := List.cons.inj hrun
      rw [← hae] at ha
      have hmem : Act.cb Ev.susp ∈ (esrCore cfg { s with gintsts := g }).2.2 := by
        simpa [stepSusp] using ha
      have hsusp := (esrCore_susp_imp cfg { s with gintsts := g } hmem).2
      exact esrRun_suspended cfg gs _ (by simpa using hsusp) mid b post htail hb
    | cons p pre' =>
      obtain ⟨_, htail⟩ := List.cons.inj hrun
      exact ih _ pre' a mid b post htail ha hb

/-- Witness for C4 at a concrete trace: suspend interrupt, wake interrupt,
suspend interrupt.  The two SUSPEND deliveries are separated by the RESUME
step, which the theorem locates. -/
theorem C4_no_double_suspend_witness :
    esrRun cfg0 st0 [2048, 2147483648, 2048] =
      [(2048, [Act.cb Ev.susp]),
       (2147483648, [Act.flushRx, Act.flushTx 16, Act.cb Ev.resume]),
       (2048, [Act.cb Ev.susp])] ∧
    ∃ c ∈ [(2147483648,
             [Act.flushRx, Act.flushTx 16, Act.cb Ev.resume])], stepClear c :=
  ⟨by decide,
   C4_no_double_suspend cfg0 [2048, 2147483648, 2048] st0 []
     (2048, [Act.cb Ev.susp])
     [(2147483648, [Act.flushRx, Act.flushTx 16, Act.cb Ev.resume])]
     (2048, [Act.cb Ev.susp]) []
     (by decide) (by decide) (by decide)⟩

/-!  Transfer engine (`_usbdev_ep_xmit`). -/

/-- Result of `_usbdev_ep_xmit`: `ok = false` means the DMA-alignment
assertion fired; otherwise `ret` is the C return value (0 or -1). -/
structure XmitRes where
  ok : Bool
  ret : Int
  st : DevState
  acts : List Act

/-- The `USBAEP` (bit 15) test of the endpoint's control register for the
endpoint's direction, read at entry of `_usbdev_ep_xmit`. -/
def epActiveBit (s : DevState) (ep : EpCtx) : Bool :=
  match ep.dir with
  | Dir.din => (s.diepctl ep.num).testBit 15
  | Dir.dout => (s.doepctl ep.num).testBit 15

/-- `_usbdev_ep_xmit(ep, buf, len)`.  In DMA mode the buffer alignment is
asserted first.  IN: abort with -1 if `USBAEP` is clear; else program
`DIEPDMA` (DMA only), `DIEPTSIZ` (`XFRSIZ` mask `0x7FFFF`; `PKTCNT = 1`
at position 19 only for endpoint 0 or DMA), unmask the endpoint in
`DAINTMSK` and `DIEPEMPMSK`, set `CNAK | EPENA` (bits 26, 31), then fill
the FIFO word-by-word when not using DMA and `len > 0`.  OUT: abort with
-1 if `USBAEP` is clear; else record the buffer (`DOEPDMA` in DMA mode,
the context's `out_buf` otherwise), program `DOEPTSIZ` with `PKTCNT = 1`,
`XFRSIZ = ep->len`, `STUPCNT = 1` (position 29) for endpoint 0, and set
`CNAK | EPENA` and the type field in `DOEPCTL`. -/
def epXmit (cfg : Cfg) (s : DevState) (ep : EpCtx) (buf len : Nat) : XmitRes :=
  if cfg.usesDma ∧ ¬ buf % cfg.dmaAlign = 0 then ⟨false, 0, s, []⟩
  else
    match ep.dir with
    | Dir.din =>
      if (s.diepctl ep.num).testBit 15 = false then ⟨true, -1, s, []⟩
      else
        let s1 := if cfg.usesDma
          then { s with diepdma := Function.update s.diepdma ep.num buf }
          else s
        let tsiz := (len &&& 0x7FFFF) |||
          (if ep.num = 0 ∨ cfg.usesDma = true then 1 <<< 19 else 0)
        let s2 := { s1 with dieptsiz := Function.update s1.dieptsiz ep.num tsiz }
        let s3 := { s2 with daintmsk := s2.daintmsk ||| (1 <<< ep.num) }
        let s4 := { s3 with diepempmsk := s3.diepempmsk ||| (1 <<< ep.num) }
        let v5 := s4.diepctl ep.num ||| ((1 <<< 26) ||| (1 <<< 31))
        let s5 := { s4 with diepctl := Function.update s4.diepctl ep.num v5 }
        if 0 < len ∧ cfg.usesDma = false then
          ⟨true, 0, s5, [Act.fifoWrite ep.num ((len + 3) / 4)]⟩
        else ⟨true, 0, s5, []⟩
    | Dir.dout =>
      if (s.doepctl ep.num).testBit 15 = false then ⟨true, -1, s, []⟩
      else
        let s1 := if cfg.usesDma
          then { s with doepdma := Function.update s.doepdma ep.num buf }
          else { s with outBuf := Function.update s.outBuf ep.num buf }
        let tsiz := ((1 <<< 19) ||| (ep.len &&& 0x7FFFF)) |||
          (if ep.num = 0 then 1 <<< 29 else 0)
        let s2 := { s1 with doeptsiz := Function.update s1.doeptsiz ep.num tsiz }
        let v3 := s2.doepctl ep.num ||| (((1 <<< 26) ||| (1 <<< 31)) ||| typeToReg ep.ty)
        let s3 := { s2 with doepctl := Function.update s2.doepctl ep.num v3 }
        ⟨true, 0, s3, []⟩

/-- C3: when the DMA-alignment assertion passes, `_usbdev_ep_xmit` returns
-1 exactly when the endpoint's `USBAEP` bit is clear at entry, and on that
failure path it performs no register writes and no FIFO writes at all: the
returned state is the entry state and the action trace is empty. -/
theorem C3_xmit_inactive (cfg : Cfg) (s : DevState) (ep : EpCtx)
    (buf len : Nat) (hok : (epXmit cfg s ep buf len).ok = true) :
    ((epXmit cfg s ep buf len).ret = -1 ↔ epActiveBit s ep = false) ∧
    (epActiveBit s ep = false →
      (epXmit cfg s ep buf len).st = s ∧ (epXmit cfg s ep buf len).acts = []) := by
  by_cases hdma : cfg.usesDma ∧ ¬ buf % cfg.dmaAlign = 0
  · exfalso
    simp only [epXmit, if_pos hdma] at hok
    exact Bool.false_ne_true hok
  · cases hd : ep.dir with
    | din =>
      by_cases hact : (s.diepctl ep.num).testBit 15 = false
      · constructor
        · simp [epXmit, hdma, hd, hact, epActiveBit]
        · intro _
          constructor <;> simp [epXmit, hdma, hd, hact]
      · have hret : (epXmit cfg s ep buf len).ret = 0 := by
          simp only [epXmit, if_neg hdma, hd, if_neg hact]
          split <;> rfl
        refine ⟨?_, fun hf =>
          absurd (by simpa [epActiveBit, hd] using hf) hact⟩
        rw [hret]
        simp [epActiveBit, hd, hact]
    | dout =>
      by_cases hact : (s.doepctl ep.num).testBit 15 = false
      · constructor
        · simp [epXmit, hdma, hd, hact, epActiveBit]
        · intro _
          constructor <;> simp [epXmit, hdma, hd, hact]
      · have hret : (epXmit cfg s ep buf len).ret = 0 := by
          simp only [epXmit, if_neg hdma, hd, if_neg hact]
        refine ⟨?_, fun hf =>
          absurd (by simpa [epActiveBit, hd] using hf) hact⟩
        rw [hret]
        simp [epActiveBit, hd, hact]

/-- Witness for C3 at a concrete input: transmitting on the inactive
IN endpoint 1 of a freshly zeroed instance fails with -1 and leaves the
state and trace untouched. -/
theorem C3_xmit_inactive_witness :
    (epXmit cfg0 st0 ⟨1, Dir.din, EpType.bulk, 64⟩ 0 64).ret = -1 ∧
    (epXmit cfg0 st0 ⟨1, Dir.din, EpType.bulk, 64⟩ 0 64).st = st0 ∧
    (epXmit cfg0 st0 ⟨1, Dir.din, EpType.bulk, 64⟩ 0 64).acts = [] :=
  ⟨(C3_xmit_inactive cfg0 st0 ⟨1, Dir.din, EpType.bulk, 64⟩ 0 64
      (by decide)).1.mpr (by decide),
   ((C3_xmit_inactive cfg0 st0 ⟨1, Dir.din, EpType.bulk, 64⟩ 0 64
      (by decide)).2 (by decide)).1,
   ((C3_xmit_inactive cfg0 st0 ⟨1, Dir.din, EpType.bulk, 64⟩ 0 64
      (by decide)).2 (by decide)).2⟩

/-- The `XFRSIZ` field (bits 0-18) of the `DOEPTSIZ` value programmed by
the OUT transmit path equals the endpoint's maximum packet length. -/
theorem tsiz_xfrsiz (l c : Nat) (hl : l < 524288)
    (hc : c = 0 ∨ c = 536870912) :
    ((524288 ||| (l &&& 524287)) ||| c) &&& 524287 = l := by
  have e1 : (524288 : Nat) = 2 ^ 19 := by norm_num
  have e2 : (524287 : Nat) = 2 ^ 19 - 1 := by norm_num
  have e3 : (536870912 : Nat) = 2 ^ 29 := by norm_num
  apply Nat.eq_of_testBit_eq
  intro i
  rcases hc with rfl | rfl
  · rw [Nat.or_zero, e1, e2]
    simp only [Nat.testBit_or, Nat.testBit_and, Nat.testBit_two_pow,
      Nat.testBit_two_pow_sub_one]
    by_cases hi : i < 19
    · have h19 : ¬ (19 = i) := by omega
      simp [hi, h19]
    · have hl2 : l.testBit i = false :=
        Nat.testBit_eq_false_of_lt
          (lt_of_lt_of_le (e1 ▸ hl) (Nat.pow_le_pow_right (by norm_num) (by omega)))
      simp [hi, hl2]
  · rw [e1, e2, e3]
    simp only [Nat.testBit_or, Nat.testBit_and, Nat.testBit_two_pow,
      Nat.testBit_two_pow_sub_one]
    by_cases hi : i < 19
    · have h19 : ¬ (19 = i) := by omega
      have h29 : ¬ (29 = i) := by omega
      simp [hi, h19, h29]
    · have hl2 : l.testBit i = false :=
        Nat.testBit_eq_false_of_lt
          (lt_of_lt_of_le (e1 ▸ hl) (Nat.pow_le_pow_right (by norm_num) (by omega)))
      simp [hi, hl2]

/-- The `PKTCNT` field (bits 19-28) of the `DOEPTSIZ` value programmed by
the OUT transmit path is exactly 1. -/
theorem tsiz_pktcnt (l c : Nat) (hl : l < 524288)
    (hc : c = 0 ∨ c = 536870912) :
    (((524288 ||| (l &&& 524287)) ||| c) >>> 19) &&& 1023 = 1 := by
  have e1 : (524288 : Nat) = 2 ^ 19 := by norm_num
  have e2 : (524287 : Nat) = 2 ^ 19 - 1 := by norm_num
  have e3 : (536870912 : Nat) = 2 ^ 29 := by norm_num
  have e4 : (1023 : Nat) = 2 ^ 10 - 1 := by norm_num
  have e5 : (1 : Nat) = 2 ^ 0 := by norm_num
  have hl19 : ∀ j, 19 ≤ j → l.testBit j = false := fun j hj =>
    Nat.testBit_eq_false_of_lt
      (lt_of_lt_of_le (e1 ▸ hl) (Nat.pow_le_pow_right (by norm_num) hj))
  have htb1 : ∀ j, Nat.testBit 1 j = decide (0 = j) := fun j => by
    rw [e5]
    exact Nat.testBit_two_pow
  apply Nat.eq_of_testBit_eq
  intro i
  rcases hc with rfl | rfl
  · rw [Nat.or_zero, e1, e2, e4]
    simp only [Nat.testBit_shiftRight, Nat.testBit_or, Nat.testBit_and,
      Nat.testBit_two_pow, Nat.testBit_two_pow_sub_one, htb1]
    by_cases hi : i = 0
    · simp [hi, hl19 19 (by omega)]
    · have h19 : ¬ (19 = 19 + i) := by omega
      have h0 : ¬ (0 = i) := by omega
      have hno : ¬ (19 + i < 19) := by omega
      simp [h19, h0, hno, hl19 (19 + i) (by omega)]
  · rw [e1, e2, e3, e4]
    simp only [Nat.testBit_shiftRight, Nat.testBit_or, Nat.testBit_and,
      Nat.testBit_two_pow, Nat.testBit_two_pow_sub_one, htb1]
    by_cases hi : i = 0
    · simp [hi, hl19 19 (by omega)]
    · have h19 : ¬ (19 = 19 + i) := by omega
      have h0 : ¬ (0 = i) := by omega
      have hno : ¬ (19 + i < 19) := by omega
      by_cases h10 : i = 10
      · have h29 : (29 = 19 + i) := by omega
        simp [h19, h0, hno, h10, hl19 (19 + i) (by omega)]
        try decide
      · have h29 : ¬ (29 = 19 + i) := by omega
        simp [h19, h0, hno, h29, hl19 (19 + i) (by omega)]

/-- C10: for a transmit call on an active OUT endpoint without DMA, the
programmed `DOEPTSIZ` has `XFRSIZ` equal to the endpoint context's `len`
field and `PKTCNT` equal to exactly 1, the buffer pointer is recorded in
the context's `out_buf`, the call returns 0, and the caller-supplied
`len` argument is ignored: the whole result is identical for any two
length arguments. -/
theorem epXmit_out_char (cfg : Cfg) (s : DevState) (ep : EpCtx)
    (buf len : Nat) (hdma : cfg.usesDma = false)
    (hdir : ep.dir = Dir.dout)
    (hact : (s.doepctl ep.num).testBit 15 = true) :
    (epXmit cfg s ep buf len).st.doeptsiz ep.num =
      ((1 <<< 19) ||| (ep.len &&& 0x7FFFF)) |||
        (if ep.num = 0 then 1 <<< 29 else 0) ∧
    (epXmit cfg s ep buf len).st.outBuf ep.num = buf ∧
    (epXmit cfg s ep buf len).ret = 0 ∧
    epXmit cfg s ep buf len = epXmit cfg s ep buf 0 := by
  have hcond : ¬ (cfg.usesDma = true ∧ ¬ buf % cfg.dmaAlign = 0) := by
    simp [hdma]
  have hfalse : ¬ ((s.doepctl ep.num).testBit 15 = false) := by
    simp [hact]
  refine ⟨?_, ?_, ?_, ?_⟩ <;>
    simp [epXmit, hcond, hfalse, hdma, hdir]

/-- C10: for a transmit call on an active OUT endpoint without DMA, the
programmed `DOEPTSIZ` has `XFRSIZ` equal to the endpoint context's `len`
field and `PKTCNT` equal to exactly 1, the buffer pointer is recorded in
the context's `out_buf`, the call returns 0, and the caller-supplied
`len` argument is ignored: the whole result is identical for any two
length arguments. -/
theorem C10_xmit_out_ignores_len (cfg : Cfg) (s : DevState) (ep : EpCtx)
    (buf len len2 : Nat) (hdma : cfg.usesDma = false)
    (hdir : ep.dir = Dir.dout)
    (hact : (s.doepctl ep.num).testBit 15 = true)
    (hlen : ep.len < 524288) :
    (epXmit cfg s ep buf len).st.doeptsiz ep.num &&& 0x7FFFF = ep.len ∧
    ((epXmit cfg s ep buf len).st.doeptsiz ep.num >>> 19) &&& 0x3FF = 1 ∧
    (epXmit cfg s ep buf len).st.outBuf ep.num = buf ∧
    (epXmit cfg s ep buf len).ret = 0 ∧
    epXmit cfg s ep buf len = epXmit cfg s ep buf len2 := by
  obtain ⟨h1, h2, h3, h4⟩ := epXmit_out_char cfg s ep buf len hdma hdir hact
  have h4b := (epXmit_out_char cfg s ep buf len2 hdma hdir hact).2.2.2
  refine ⟨?_, ?_, h2, h3, h4.trans h4b.symm⟩
  · rw [h1]
    by_cases hn : ep.num = 0
    · simpa [hn] using tsiz_xfrsiz ep.len 536870912 hlen (Or.inr rfl)
    · simpa [hn] using tsiz_xfrsiz ep.len 0 hlen (Or.inl rfl)
  · rw [h1]
    by_cases hn : ep.num = 0
    · simpa [hn] using tsiz_pktcnt ep.len 536870912 hlen (Or.inr rfl)
    · simpa [hn] using tsiz_pktcnt ep.len 0 hlen (Or.inl rfl)

/-- Witness for C10 at a concrete input: on an instance whose OUT
endpoint 1 is active, two transmit calls with different lengths program
`XFRSIZ = 64` (the context length), `PKTCNT = 1`, record the buffer, and
return 0, with identical results. -/
theorem C10_xmit_out_ignores_len_witness :
    (epXmit cfg0 { st0 with doepctl := fun _ => 32768 }
        ⟨1, Dir.dout, EpType.bulk, 64⟩ 100 5).st.doeptsiz 1 &&& 0x7FFFF = 64 ∧
    ((epXmit cfg0 { st0 with doepctl := fun _ => 32768 }
        ⟨1, Dir.dout, EpType.bulk, 64⟩ 100 5).st.doeptsiz 1 >>> 19) &&& 0x3FF = 1 ∧
    (epXmit cfg0 { st0 with doepctl := fun _ => 32768 }
        ⟨1, Dir.dout, EpType.bulk, 64⟩ 100 5).st.outBuf 1 = 100 ∧
    (epXmit cfg0 { st0 with doepctl := fun _ => 32768 }
        ⟨1, Dir.dout, EpType.bulk, 64⟩ 100 5).ret = 0 ∧
    epXmit cfg0 { st0 with doepctl := fun _ => 32768 }
        ⟨1, Dir.dout, EpType.bulk, 64⟩ 100 5 =
      epXmit cfg0 { st0 with doepctl := fun _ => 32768 }
        ⟨1, Dir.dout, EpType.bulk, 64⟩ 100 7 :=
  C10_xmit_out_ignores_len cfg0 { st0 with doepctl := fun _ => 32768 }
    ⟨1, Dir.dout, EpType.bulk, 64⟩ 100 5 7
    (by decide) (by decide) (by decide) (by decide)

/-!  Endpoint resource manager (`_usbdev_new_ep`). -/

/-- Context lookup by direction (`_get_ep`'s array selection). -/
def getCtx (s : DevState) (d : Dir) (i : Nat) : EpCtx :=
  match d with
  | Dir.din => s.epIn i
  | Dir.dout => s.epOut i

/-- Context store by direction. -/
def setCtx (s : DevState) (d : Dir) (i : Nat) (c : EpCtx) : DevState :=
  match d with
  | Dir.din => { s with epIn := Function.update s.epIn i c }
  | Dir.dout => { s with epOut := Function.update s.epOut i c }

/-- The ascending scan of `_usbdev_new_ep` for the first context of the
requested direction whose type is still `USB_EP_TYPE_NONE`, starting at
`idx` and bounded by `maxEp`; `fuel` bounds the recursion and is always
called with at least `maxEp - idx`. -/
def scanFree (s : DevState) (d : Dir) (maxEp : Nat) : Nat → Nat → Option Nat
  | _, 0 => Option.none
  | idx, fuel + 1 =>
    if idx < maxEp then
      if (getCtx s d idx).ty = EpType.none then some idx
      else scanFree s d maxEp (idx + 1) fuel
    else Option.none

/-- The scan loop of `_usbdev_new_ep`: non-zero endpoint numbers in
ascending order. -/
def findFreeIdx (cfg : Cfg) (s : DevState) (d : Dir) : Option Nat :=
  scanFree s d cfg.maxEp 1 cfg.maxEp

/-- Result of `_usbdev_new_ep`: the returned endpoint number (`Option.none`
for a NULL result), the state, and `ok = false` when the FIFO-allocation
assertion inside `_configure_tx_fifo` fired. -/
structure NewEpRes where
  res : Option Nat
  st : DevState
  ok : Bool

/-- `_usbdev_new_ep(dev, type, dir, len)`: for a control request return
endpoint 0 of the direction (setting its number); otherwise scan upward
for the first unassigned context of the direction.  If the found context
is unassigned, stamp it with the direction, type and length, and for a
non-zero IN endpoint allocate its transmit FIFO. -/
def newEp (cfg : Cfg) (s : DevState) (t : EpType) (d : Dir) (len : Nat) :
    NewEpRes :=
  if t = EpType.control then
    let s0 := setCtx s d 0 { getCtx s d 0 with num := 0 }
    if (getCtx s0 d 0).ty = EpType.none then
      let s1 := setCtx s0 d 0 { getCtx s0 d 0 with dir := d, ty := t, len := len }
      ⟨some 0, s1, true⟩
    else ⟨some 0, s0, true⟩
  else
    match findFreeIdx cfg s d with
    | Option.none => ⟨Option.none, s, true⟩
    | some idx =>
      let s0 := setCtx s d idx { getCtx s d idx with num := idx }
      if (getCtx s0 d idx).ty = EpType.none then
        let s1 := setCtx s0 d idx
          { getCtx s0 d idx with dir := d, ty := t, len := len }
        if d = Dir.din ∧ idx ≠ 0 then
          ⟨some idx, (configureTxFifo cfg s1 idx len).st,
           (configureTxFifo cfg s1 idx len).ok⟩
        else ⟨some idx, s1, true⟩
      else ⟨some idx, s0, true⟩

/-- A claim request: type, direction, maximum packet length. -/
structure Req where
  ty : EpType
  d : Dir
  len : Nat

/-- Run a sequence of `_usbdev_new_ep` calls, recording the returned
endpoint numbers; a FIFO-allocation assertion terminates the program, so
the run stops there. -/
def runNewEps (cfg : Cfg) (s : DevState) : List Req → List (Option Nat)
  | [] => []
  | r :: rs =>
    if (newEp cfg s r.ty r.d r.len).ok
    then (newEp cfg s r.ty r.d r.len).res ::
      runNewEps cfg (newEp cfg s r.ty r.d r.len).st rs
    else []

/-- A successful scan returns an in-range index at or above the start,
with an unassigned context and no unassigned context between the start
and it. -/
theorem scanFree_some (s : DevState) (d : Dir) (m : Nat) :
    ∀ (fuel idx i : Nat), scanFree s d m idx fuel = some i →
      idx ≤ i ∧ i < m ∧ (getCtx s d i).ty = EpType.none ∧
      ∀ j, j < i → idx ≤ j → (getCtx s d j).ty ≠ EpType.none := by
  intro fuel
  induction fuel with
  | zero => intro idx i h; exact absurd h (by simp [scanFree])
  | succ fuel ih =>
    intro idx i h
    simp only [scanFree] at h
    by_cases hlt : idx < m
    · rw [if_pos hlt] at h
      by_cases hfree : (getCtx s d idx).ty = EpType.none
      · rw [if_pos hfree] at h
        obtain rfl : idx = i := by simpa using h
        exact ⟨le_refl _, hlt, hfree, fun j hj hj2 => by omega⟩
      · rw [if_neg hfree] at h
        obtain ⟨h1, h2, h3, h4⟩ := ih (idx + 1) i h
        refine ⟨by omega, h2, h3, fun j hj hj2 => ?_⟩
        rcases Nat.eq_or_lt_of_le hj2 with rfl | hj3
        · exact hfree
        · exact h4 j hj (by omega)
    · rw [if_neg hlt] at h
      exact absurd h (by simp)

/-- With enough fuel, the scan returns NULL exactly when every index in
range at or above the start is assigned. -/
theorem scanFree_none (s : DevState) (d : Dir) (m : Nat) :
    ∀ (fuel idx : Nat), m ≤ idx + fuel →
      (scanFree s d m idx fuel = Option.none ↔
        ∀ j, j < m → idx ≤ j → (getCtx s d j).ty ≠ EpType.none) := by
  intro fuel
  induction fuel with
  | zero =>
    intro idx hm
    simp only [scanFree]
    constructor
    · intro _ j hj hj2
      omega
    · intro _
      trivial
  | succ fuel ih =>
    intro idx hm
    simp only [scanFree]
    by_cases hlt : idx < m
    · rw [if_pos hlt]
      by_cases hfree : (getCtx s d idx).ty = EpType.none
      · rw [if_pos hfree]
        constructor
        · intro h
          exact absurd h (by simp)
        · intro hall
          exact absurd hfree (hall idx hlt (le_refl _))
      · rw [if_neg hfree]
        rw [ih (idx + 1) (by omega)]
        constructor
        · intro hall j hj hj2
          rcases Nat.eq_or_lt_of_le hj2 with rfl | hj3
          · exact hfree
          · exact hall j hj (by omega)
        · intro hall j hj hj2
          exact hall j hj (by omega)
    · rw [if_neg hlt]
      constructor
      · intro _ j hj hj2
        omega
      · intro _
        trivial

@[simp] theorem getCtx_setCtx_same (s : DevState) (d : Dir) (i : Nat)
    (c : EpCtx) : getCtx (setCtx s d i c) d i = c := by
  cases d <;> simp [getCtx, setCtx]

theorem getCtx_setCtx_ne (s : DevState) (d : Dir) (i j : Nat) (c : EpCtx)
    (h : j ≠ i) : getCtx (setCtx s d i c) d j = getCtx s d j := by
  cases d <;> simp [getCtx, setCtx, Function.update_noteq h]

theorem getCtx_configureTxFifo (cfg : Cfg) (s : DevState) (num len : Nat)
    (d : Dir) (j : Nat) :
    getCtx (configureTxFifo cfg s num len).st d j = getCtx s d j := by
  cases d <;>
    · simp only [configureTxFifo, getCtx]
      split <;> rfl

/-- Characterization of a non-control `_usbdev_new_ep` call: a NULL result
leaves the state unchanged and happens exactly when the scan fails; a
successful result returns the index found by the scan, stamps exactly that
context of the direction with the requested type, and leaves every other
context of the direction unchanged. -/
theorem newEp_char (cfg : Cfg) (s : DevState) (t : EpType) (d : Dir)
    (len : Nat) (ht : ¬ t = EpType.control) :
    ((newEp cfg s t d len).res = Option.none ↔
        findFreeIdx cfg s d = Option.none) ∧
    ((newEp cfg s t d len).res = Option.none → (newEp cfg s t d len).st = s) ∧
    (∀ i, findFreeIdx cfg s d = some i →
      (newEp cfg s t d len).res = some i ∧
      (getCtx (newEp cfg s t d len).st d i).ty = t ∧
      ∀ j, j ≠ i → getCtx (newEp cfg s t d len).st d j = getCtx s d j) := by
  rcases hf : findFreeIdx cfg s d with _ | i
  · refine ⟨by simp [newEp, ht, hf], by simp [newEp, ht, hf], ?_⟩
    intro i hi
    exact absurd hi (by simp)
  · have hscan := scanFree_some s d cfg.maxEp cfg.maxEp 1 i hf
    have hfree : (getCtx s d i).ty = EpType.none := hscan.2.2.1
    have hguard : (getCtx (setCtx s d i { getCtx s d i with num := i }) d i).ty
        = EpType.none := by
      simp [hfree]
    refine ⟨?_, ?_, ?_⟩
    · simp only [newEp, if_neg ht, hf]
      rw [if_pos hguard]
      split <;> simp
    · intro hres
      exfalso
      revert hres
      simp only [newEp, if_neg ht, hf]
      rw [if_pos hguard]
      split <;> simp
    · intro i2 hi2
      obtain rfl : i = i2 := by simpa using hi2
      simp only [newEp, if_neg ht, hf]
      rw [if_pos hguard]
      constructor
      · split <;> simp
      constructor
      · split
        · rw [getCtx_configureTxFifo]
          simp
        · simp
      · intro j hj
        split
        · rw [getCtx_configureTxFifo,
            getCtx_setCtx_ne _ _ _ _ _ hj, getCtx_setCtx_ne _ _ _ _ _ hj]
        · rw [getCtx_setCtx_ne _ _ _ _ _ hj, getCtx_setCtx_ne _ _ _ _ _ hj]

/-- Over any sequence of non-control, non-`NONE` claim requests of a fixed
direction, the successful results are strictly increasing, and all of them
are at least `k` whenever every context of the direction below `k` is
already assigned. -/
theorem runNewEps_chain (cfg : Cfg) (d : Dir) :
    ∀ (rs : List Req) (s : DevState) (k : Nat),
      (∀ r ∈ rs, ¬ r.ty = EpType.control ∧ ¬ r.ty = EpType.none ∧ r.d = d) →
      (∀ j, j < k → 1 ≤ j → (getCtx s d j).ty ≠ EpType.none) →
      List.Chain' (· < ·) ((runNewEps cfg s rs).filterMap id) ∧
      ∀ x ∈ (runNewEps cfg s rs).filterMap id, k ≤ x := by
  intro rs
  induction rs with
  | nil =>
    intro s k _ _
    exact ⟨List.chain'_nil, by simp [runNewEps]⟩
  | cons r rs ih =>
    intro s k hwf hst
    obtain ⟨htc, htn, hd⟩ := hwf r (List.mem_cons_self _ _)
    have hwf' : ∀ x ∈ rs, ¬ x.ty = EpType.control ∧ ¬ x.ty = EpType.none ∧
        x.d = d := fun x hx => hwf x (List.mem_cons_of_mem _ hx)
    simp only [runNewEps]
    rw [hd]
    by_cases hok : (newEp cfg s r.ty d r.len).ok = true
    · rw [if_pos hok]
      rcases hres : (newEp cfg s r.ty d r.len).res with _ | i
      · have hstu : (newEp cfg s r.ty d r.len).st = s :=
          (newEp_char cfg s r.ty d r.len htc).2.1 hres
        rw [hstu]
        have hfm : List.filterMap id ((Option.none : Option Nat) ::
            runNewEps cfg s rs) = List.filterMap id (runNewEps cfg s rs) := rfl
        rw [hfm]
        exact ih s k hwf' hst
      · rcases hff : findFreeIdx cfg s d with _ | i2
        · exfalso
          have := (newEp_char cfg s r.ty d r.len htc).1.mpr hff
          rw [hres] at this
          exact absurd this (by simp)
        · obtain ⟨hres2, hstamp, hpres⟩ :=
            (newEp_char cfg s r.ty d r.len htc).2.2 i2 hff
          obtain rfl : i2 = i := by
            rw [hres] at hres2
            exact (Option.some.inj hres2).symm
          have hscan := scanFree_some s d cfg.maxEp cfg.maxEp 1 i2 hff
          have hki : k ≤ i2 := by
            by_contra hik
            exact hst i2 (by omega) hscan.1 hscan.2.2.1
          have hst' : ∀ j, j < i2 + 1 → 1 ≤ j →
              (getCtx (newEp cfg s r.ty d r.len).st d j).ty ≠ EpType.none := by
            intro j hj h1
            by_cases hji : j = i2
            · subst hji
              rw [hstamp]
              exact htn
            · rw [hpres j hji]
              exact hscan.2.2.2 j (by omega) h1
          obtain ⟨hchain, hbound⟩ :=
            ih (newEp cfg s r.ty d r.len).st (i2 + 1) hwf' hst'
          have hfm : List.filterMap id (some i2 ::
              runNewEps cfg (newEp cfg s r.ty d r.len).st rs) =
            i2 :: List.filterMap id
              (runNewEps cfg (newEp cfg s r.ty d r.len).st rs) := rfl
          rw [hfm]
          constructor
          · refine List.chain'_cons'.mpr ⟨fun y hy => ?_, hchain⟩
            have hmem := List.mem_of_mem_head? hy
            have := hbound y hmem
            omega
          · intro x hx
            rcases List.mem_cons.mp hx with rfl | hx2
            · exact hki
            · have := hbound x hx2
              omega
    · rw [if_neg hok]
      exact ⟨List.chain'_nil, by simp⟩

/-- C5: for every sequence of `_usbdev_new_ep` calls with non-control
types (requests of an actual endpoint type) and a fixed direction, the
endpoint numbers returned by successful calls are strictly increasing;
each successful call returns the first (lowest-numbered, scanned from 1
upward) context of the direction whose type is still unassigned — so a
number already stamped with a type is never returned again — and the call
returns NULL exactly when no unassigned context of the direction
remains. -/
theorem C5_claim_strictly_increasing (cfg : Cfg) (d : Dir) :
    (∀ (s : DevState) (reqs : List Req),
      (∀ r ∈ reqs, ¬ r.ty = EpType.control ∧ ¬ r.ty = EpType.none ∧
        r.d = d) →
      List.Chain' (· < ·) ((runNewEps cfg s reqs).filterMap id)) ∧
    (∀ (s : DevState) (t : EpType) (len i : Nat), ¬ t = EpType.control →
      (newEp cfg s t d len).res = some i →
      1 ≤ i ∧ i < cfg.maxEp ∧ (getCtx s d i).ty = EpType.none ∧
      ∀ j, j < i → 1 ≤ j → (getCtx s d j).ty ≠ EpType.none) ∧
    (∀ (s : DevState) (t : EpType) (len : Nat), ¬ t = EpType.control →
      ((newEp cfg s t d len).res = Option.none ↔
        ∀ j, j < cfg.maxEp → 1 ≤ j → (getCtx s d j).ty ≠ EpType.none)) := by
  refine ⟨?_, ?_, ?_⟩
  · intro s reqs hwf
    exact (runNewEps_chain cfg d reqs s 1 hwf (fun j hj h1 => by omega)).1
  · intro s t len i ht hres
    rcases hff : findFreeIdx cfg s d with _ | i2
    · exfalso
      have := (newEp_char cfg s t d len ht).1.mpr hff
      rw [hres] at this
      exact absurd this (by simp)
    · obtain ⟨hres2, _, _⟩ := (newEp_char cfg s t d len ht).2.2 i2 hff
      obtain rfl : i2 = i := by
        rw [hres] at hres2
        exact (Option.some.inj hres2).symm
      exact scanFree_some s d cfg.maxEp cfg.maxEp 1 i2 hff
  · intro s t len ht
    rw [(newEp_char cfg s t d len ht).1, findFreeIdx,
      scanFree_none s d cfg.maxEp cfg.maxEp 1 (by omega)]

/-- Witness for C5 at concrete inputs: on a fresh instance two IN claims
(bulk then interrupt) return endpoints 1 and 2 (strictly increasing); the
second component instantiates the first-fit bounds for the first call, and
on a fully claimed instance a further request returns NULL. -/
theorem C5_claim_strictly_increasing_witness :
    List.Chain' (· < ·) ((runNewEps cfg0 st0
      [⟨EpType.bulk, Dir.din, 64⟩, ⟨EpType.interrupt, Dir.din, 32⟩]).filterMap id) ∧
    (1 ≤ 1 ∧ 1 < cfg0.maxEp ∧ (getCtx st0 Dir.din 1).ty = EpType.none) ∧
    (newEp cfg0 { st0 with epIn := fun i => ⟨i, Dir.din, EpType.bulk, 64⟩ }
      EpType.interrupt Dir.din 64).res = Option.none :=
  ⟨(C5_claim_strictly_increasing cfg0 Dir.din).1 st0
     [⟨EpType.bulk, Dir.din, 64⟩, ⟨EpType.interrupt, Dir.din, 32⟩]
     (by decide),
   ⟨((C5_claim_strictly_increasing cfg0 Dir.din).2.1 st0 EpType.bulk 64 1
       (by decide) (by decide)).1,
    ((C5_claim_strictly_increasing cfg0 Dir.din).2.1 st0 EpType.bulk 64 1
       (by decide) (by decide)).2.1,
    ((C5_claim_strictly_increasing cfg0 Dir.din).2.1 st0 EpType.bulk 64 1
       (by decide) (by decide)).2.2.1⟩,
   ((C5_claim_strictly_increasing cfg0 Dir.din).2.2
       { st0 with epIn := fun i => ⟨i, Dir.din, EpType.bulk, 64⟩ }
       EpType.interrupt 64 (by decide)).mpr (by decide)⟩

/-!  Instance-level option handling (`_usbdev_set`). -/

/-- The `usbopt_t` values reaching `_usbdev_set`'s switch: the two
recognized instance-level options and a representative unrecognized one. -/
inductive UsbOpt | address | attach | otherOpt
deriving DecidableEq

/-- `ENOTSUP` as used through `-ENOTSUP` (the concrete libc value is
irrelevant to the contract; only its sign and distinctness matter). -/
def enotsup : Int := 95

/-- Result of `_usbdev_set`: the C return value, the state, and `ok =
false` when a `value_len` assertion fired. -/
structure SetRes where
  ret : Int
  st : DevState
  ok : Bool

/-- `_usbdev_set(dev, opt, value, value_len)`.  `USBOPT_ADDRESS`: assert
`value_len == sizeof(uint8_t)`, program the device address — and fall out
of the switch without updating `res`, so the initial `-ENOTSUP` is
returned.  `USBOPT_ATTACH`: assert the length, set or clear the
soft-disconnect bit, return `sizeof(usbopt_enable_t)` (4).  Anything else
returns `-ENOTSUP`. -/
def usbdevSet (s : DevState) (opt : UsbOpt) (value : Nat) (value_len : Nat) :
    SetRes :=
  match opt with
  | UsbOpt.address =>
    if value_len = 1 then
      ⟨-enotsup, setAddress s (value % 256), true⟩
    else ⟨-enotsup, s, false⟩
  | UsbOpt.attach =>
    if value_len = 4 then
      if value ≠ 0 then ⟨4, usbAttach s, true⟩
      else ⟨4, usbDetach s, true⟩
    else ⟨-enotsup, s, false⟩
  | UsbOpt.otherOpt => ⟨-enotsup, s, true⟩

/-- C7 (code bug evidence): `_usbdev_set` with `USBOPT_ADDRESS` performs
the `DCFG.DAD` write but still returns `-ENOTSUP`, because the `res`
variable is never updated in that switch case, while `USBOPT_ATTACH`
returns the number of bytes consumed as the contract requires.  The claim
(and the `usbdev` API contract: bytes consumed on success) says the
address option must return `sizeof(uint8_t)`, not the
not-supported code. -/
theorem C7_set_address_returns_enotsup :
    (usbdevSet st0 UsbOpt.address 5 1).ret = -enotsup ∧
    (usbdevSet st0 UsbOpt.address 5 1).st.dcfg &&& 0x7F0 = 5 <<< 4 ∧
    (usbdevSet st0 UsbOpt.attach 1 4).ret = 4 ∧
    (usbdevSet st0 UsbOpt.otherOpt 0 4).ret = -enotsup := by
  refine ⟨rfl, by decide, rfl, rfl⟩

/-!  Endpoint activation (`_ep_activate`). -/

/-- `_ep_activate(ep)`.  IN: disable if active, unmask the endpoint in
`DAINTMSK`, then OR into `DIEPCTL` the composed value `SNAK | USBAEP |`
type `| TXFNUM` and — for endpoint 0 the EP0 size encoding, otherwise the
raw length plus `SD0PID_SEVNFRM` (bit 28).  OUT: disable if active,
unmask at `num + 16`, OR `SNAK | USBAEP` into `DOEPCTL`; the source then
computes `_type_to_reg(ep->type)` and discards the value (a statement with
no effect), and finally ORs in the size encoding (endpoint 0) or the raw
length and then `SD0PID_SEVNFRM`. -/
def epActivate (cfg : Cfg) (s : DevState) (ep : EpCtx) : DevState × List Act :=
  match ep.dir with
  | Dir.din =>
    let p := epInDisable s ep.num
    let s2 := { p.1 with daintmsk := p.1.daintmsk ||| (1 <<< ep.num) }
    let bits := (((1 <<< 27) ||| (1 <<< 15)) ||| typeToReg ep.ty |||
      (ep.num <<< 22)) |||
      (if ep.num = 0 then ep0Size ep.len else ep.len ||| (1 <<< 28))
    let v := s2.diepctl ep.num ||| bits
    ({ s2 with diepctl := Function.update s2.diepctl ep.num v }, p.2)
  | Dir.dout =>
    let p := epOutDisable s ep.num
    let s2 := { p.1 with daintmsk := p.1.daintmsk ||| (1 <<< (ep.num + 16)) }
    let v3 := s2.doepctl ep.num ||| ((1 <<< 27) ||| (1 <<< 15))
    let s3 := { s2 with doepctl := Function.update s2.doepctl ep.num v3 }
    let s4 :=
      if ep.num = 0 then
        let v4 := s3.doepctl ep.num ||| ep0Size ep.len
        { s3 with doepctl := Function.update s3.doepctl ep.num v4 }
      else
        let va := s3.doepctl ep.num ||| ep.len
        let sa := { s3 with doepctl := Function.update s3.doepctl ep.num va }
        let vb := sa.doepctl ep.num ||| (1 <<< 28)
        { sa with doepctl := Function.update sa.doepctl ep.num vb }
    (s4, p.2)

@[simp] theorem enableGlobalInNak_diepctl (s : DevState) :
    (enableGlobalInNak s).diepctl = s.diepctl := by
  simp only [enableGlobalInNak]
  split <;> rfl

@[simp] theorem disableGlobalInNak_diepctl (s : DevState) :
    (disableGlobalInNak s).diepctl = s.diepctl := by
  simp only [disableGlobalInNak]
  split <;> rfl

@[simp] theorem enableGlobalInNak_daintmsk (s : DevState) :
    (enableGlobalInNak s).daintmsk = s.daintmsk := by
  simp only [enableGlobalInNak]
  split <;> rfl

@[simp] theorem disableGlobalInNak_daintmsk (s : DevState) :
    (disableGlobalInNak s).daintmsk = s.daintmsk := by
  simp only [disableGlobalInNak]
  split <;> rfl

@[simp] theorem enableGlobalOutNak_doepctl (s : DevState) :
    (enableGlobalOutNak s).doepctl = s.doepctl := by
  simp only [enableGlobalOutNak]
  split <;> rfl

@[simp] theorem disableGlobalOutNak_doepctl (s : DevState) :
    (disableGlobalOutNak s).doepctl = s.doepctl := by
  simp only [disableGlobalOutNak]
  split <;> rfl

@[simp] theorem enableGlobalOutNak_daintmsk (s : DevState) :
    (enableGlobalOutNak s).daintmsk = s.daintmsk := by
  simp only [enableGlobalOutNak]
  split <;> rfl

@[simp] theorem disableGlobalOutNak_daintmsk (s : DevState) :
    (disableGlobalOutNak s).daintmsk = s.daintmsk := by
  simp only [disableGlobalOutNak]
  split <;> rfl

/-- After `_ep_in_disable` the endpoint's `DIEPCTL` holds `SNAK` with
`EPENA` cleared by the hardware when it was enabled, and is untouched
otherwise. -/
theorem epInDisable_diepctl (s : DevState) (n : Nat) :
    (epInDisable s n).1.diepctl n =
      if (s.diepctl n).testBit 31
      then ((1 <<< 30) ||| (1 <<< 27)) &&& compl32 (1 <<< 30)
      else s.diepctl n := by
  simp only [epInDisable]
  split
  · simp [flushTxFifo]
  · rfl

theorem epInDisable_daintmsk (s : DevState) (n : Nat) :
    (epInDisable s n).1.daintmsk = s.daintmsk := by
  simp only [epInDisable]
  split <;> simp [flushTxFifo]

theorem epInDisable_acts (s : DevState) (n : Nat) :
    (epInDisable s n).2 =
      if (s.diepctl n).testBit 31 then [Act.flushTx n] else [] := by
  simp only [epInDisable]
  split <;> simp [flushTxFifo]

theorem epOutDisable_doepctl (s : DevState) (n : Nat) :
    (epOutDisable s n).1.doepctl n =
      if (s.doepctl n).testBit 31
      then ((1 <<< 30) ||| (1 <<< 27)) &&& compl32 (1 <<< 30)
      else s.doepctl n := by
  simp only [epOutDisable]
  split
  · simp
  · rfl

theorem epOutDisable_daintmsk (s : DevState) (n : Nat) :
    (epOutDisable s n).1.daintmsk = s.daintmsk := by
  simp only [epOutDisable]
  split <;> simp

/-!  Bit-level helper lemmas for the activation sequence. -/

theorem tb_lor_left (x y b : Nat) (h : x.testBit b = true) :
    (x ||| y).testBit b = true := by
  simp [Nat.testBit_or, h]

theorem tb_lor_right (x y b : Nat) (h : y.testBit b = true) :
    (x ||| y).testBit b = true := by
  simp [Nat.testBit_or, h]

theorem tb_lor_both (x y b : Nat) (hx : x.testBit b = false)
    (hy : y.testBit b = false) : (x ||| y).testBit b = false := by
  simp [Nat.testBit_or, hx, hy]

theorem tb_small {x n j : Nat} (h : x < 2 ^ n) (hj : n ≤ j) :
    x.testBit j = false :=
  Nat.testBit_eq_false_of_lt
    (lt_of_lt_of_le h (Nat.pow_le_pow_right (by norm_num) hj))

theorem tb_one_shift_self (n : Nat) : (1 <<< n).testBit n = true := by
  rw [Nat.one_shiftLeft]
  exact Nat.testBit_two_pow_self

theorem typeToReg_lt (t : EpType) : typeToReg t < 2 ^ 20 := by
  cases t <;> decide

theorem ep0Size_lt (l : Nat) : ep0Size l < 4 := by
  unfold ep0Size
  split_ifs <;> norm_num

/-- ORing a value whose bits 18 and 19 are clear does not change the
two-bit `EPTYP` field at position 18. -/
theorem field1819 (x c : Nat) (h18 : c.testBit 18 = false)
    (h19 : c.testBit 19 = false) :
    ((x ||| c) >>> 18) &&& 3 = (x >>> 18) &&& 3 := by
  apply Nat.eq_of_testBit_eq
  intro i
  simp only [Nat.testBit_and, Nat.testBit_shiftRight, Nat.testBit_or]
  by_cases hi : i < 2
  · interval_cases i <;> simp [h18, h19]
  · have h3 : (3 : Nat).testBit i = false := by
      refine tb_small (n := 2) (by norm_num) (by omega)
    simp [h3]

theorem epActivate_din_diepctl (cfg : Cfg) (s : DevState) (ep : EpCtx)
    (hd : ep.dir = Dir.din) :
    (epActivate cfg s ep).1.diepctl ep.num =
      (epInDisable s ep.num).1.diepctl ep.num |||
        ((((1 <<< 27) ||| (1 <<< 15)) ||| typeToReg ep.ty |||
          (ep.num <<< 22)) |||
          (if ep.num = 0 then ep0Size ep.len else ep.len ||| (1 <<< 28))) := by
  simp [epActivate, hd]

theorem epActivate_din_daintmsk (cfg : Cfg) (s : DevState) (ep : EpCtx)
    (hd : ep.dir = Dir.din) :
    (epActivate cfg s ep).1.daintmsk = s.daintmsk ||| (1 <<< ep.num) := by
  simp [epActivate, hd, epInDisable_daintmsk]

theorem epActivate_din_acts (cfg : Cfg) (s : DevState) (ep : EpCtx)
    (hd : ep.dir = Dir.din) :
    (epActivate cfg s ep).2 = (epInDisable s ep.num).2 := by
  simp [epActivate, hd]

theorem epActivate_dout_doepctl (cfg : Cfg) (s : DevState) (ep : EpCtx)
    (hd : ep.dir = Dir.dout) :
    (epActivate cfg s ep).1.doepctl ep.num =
      if ep.num = 0 then
        ((epOutDisable s ep.num).1.doepctl ep.num |||
          ((1 <<< 27) ||| (1 <<< 15))) ||| ep0Size ep.len
      else
        (((epOutDisable s ep.num).1.doepctl ep.num |||
          ((1 <<< 27) ||| (1 <<< 15))) ||| ep.len) ||| (1 <<< 28) := by
  simp only [epActivate, hd]
  split <;> simp

theorem epActivate_dout_daintmsk (cfg : Cfg) (s : DevState) (ep : EpCtx)
    (hd : ep.dir = Dir.dout) :
    (epActivate cfg s ep).1.daintmsk =
      s.daintmsk ||| (1 <<< (ep.num + 16)) := by
  simp only [epActivate, hd]
  split <;> simp [epOutDisable_daintmsk]

/-- Counterexample to C8 as stated: activating a bulk OUT endpoint whose
control register starts at 0 leaves the `EPTYP` field (bits 18-19) at 0,
although the bulk encoding is 2 — `_ep_activate` computes
`_type_to_reg(ep->type)` for the OUT direction but discards the value, so
the negotiated type is not programmed into `DOEPCTL`. -/
theorem C8_activate_counterexample :
    ((epActivate cfg0 st0 ⟨1, Dir.dout, EpType.bulk, 64⟩).1.doepctl 1 >>> 18)
        &&& 3 = 0 ∧
    (typeToReg EpType.bulk >>> 18) &&& 3 = 2 := by
  constructor
  · rfl
  · rfl

/-- C8 (amended): `set_enabled(ep, true)` disables the endpoint first if
it was active (final `EPENA` is clear, and for IN the disable sequence
flushed the endpoint's FIFO), unmasks the endpoint in `DAINTMSK` (bit
`num` for IN, `num + 16` for OUT), sets `SNAK` and `USBAEP`, and programs
the EP0 max-packet-size encoding (endpoint 0) or the raw length plus the
`SD0PID_SEVNFRM` toggle bit (other endpoints).  The negotiated type is
programmed only for the IN direction; for OUT the type encoding is
computed and discarded, leaving the `EPTYP` field unchanged (the transmit
path ORs it in later). -/
theorem C8_activate_amended (cfg : Cfg) (s : DevState) (ep : EpCtx)
    (hl : ep.len < 32768) (hn : ep.num < 16) :
    (ep.dir = Dir.din →
      ((epActivate cfg s ep).1.daintmsk).testBit ep.num = true ∧
      ((epActivate cfg s ep).1.diepctl ep.num).testBit 27 = true ∧
      ((epActivate cfg s ep).1.diepctl ep.num).testBit 15 = true ∧
      (∀ b, (typeToReg ep.ty).testBit b = true →
        ((epActivate cfg s ep).1.diepctl ep.num).testBit b = true) ∧
      (ep.num = 0 → ∀ b, (ep0Size ep.len).testBit b = true →
        ((epActivate cfg s ep).1.diepctl ep.num).testBit b = true) ∧
      (¬ ep.num = 0 →
        ((epActivate cfg s ep).1.diepctl ep.num).testBit 28 = true ∧
        ∀ b, ep.len.testBit b = true →
          ((epActivate cfg s ep).1.diepctl ep.num).testBit b = true) ∧
      ((epActivate cfg s ep).1.diepctl ep.num).testBit 31 = false ∧
      ((s.diepctl ep.num).testBit 31 = true →
        Act.flushTx ep.num ∈ (epActivate cfg s ep).2)) ∧
    (ep.dir = Dir.dout →
      ((epActivate cfg s ep).1.daintmsk).testBit (ep.num + 16) = true ∧
      ((epActivate cfg s ep).1.doepctl ep.num).testBit 27 = true ∧
      ((epActivate cfg s ep).1.doepctl ep.num).testBit 15 = true ∧
      (ep.num = 0 → ∀ b, (ep0Size ep.len).testBit b = true →
        ((epActivate cfg s ep).1.doepctl ep.num).testBit b = true) ∧
      (¬ ep.num = 0 →
        ((epActivate cfg s ep).1.doepctl ep.num).testBit 28 = true ∧
        ∀ b, ep.len.testBit b = true →
          ((epActivate cfg s ep).1.doepctl ep.num).testBit b = true) ∧
      ((epActivate cfg s ep).1.doepctl ep.num).testBit 31 = false ∧
      ((s.doepctl ep.num).testBit 31 = false →
        ((epActivate cfg s ep).1.doepctl ep.num >>> 18) &&& 3 =
          (s.doepctl ep.num >>> 18) &&& 3)) := by
  have hshift26 : ep.num <<< 22 < 2 ^ 26 := by
    rw [Nat.shiftLeft_eq]
    have : ep.num * 2 ^ 22 < 16 * 2 ^ 22 := by
      have h22 : 0 < 2 ^ 22 := by norm_num
      exact (Nat.mul_lt_mul_right h22).mpr hn
    calc ep.num * 2 ^ 22 < 16 * 2 ^ 22 := this
      _ = 2 ^ 26 := by norm_num
  constructor
  · intro hd
    have hbase31 : ((epInDisable s ep.num).1.diepctl ep.num).testBit 31
        = false := by
      rw [epInDisable_diepctl]
      split
      · decide
      · rename_i h
        simpa using h
    rw [epActivate_din_diepctl cfg s ep hd, epActivate_din_daintmsk cfg s ep hd,
      epActivate_din_acts cfg s ep hd]
    refine ⟨?_, ?_, ?_, ?_, ?_, ?_, ?_, ?_⟩
    · exact tb_lor_right _ _ _ (tb_one_shift_self ep.num)
    · exact tb_lor_right _ _ _ (tb_lor_left _ _ _ (tb_lor_left _ _ _
        (tb_lor_left _ _ _ (tb_lor_left _ _ _ (by decide)))))
    · exact tb_lor_right _ _ _ (tb_lor_left _ _ _ (tb_lor_left _ _ _
        (tb_lor_left _ _ _ (tb_lor_right _ _ _ (by decide)))))
    · intro b hb
      exact tb_lor_right _ _ _ (tb_lor_left _ _ _ (tb_lor_left _ _ _
        (tb_lor_right _ _ _ hb)))
    · intro h0 b hb
      rw [if_pos h0]
      exact tb_lor_right _ _ _ (tb_lor_right _ _ _ hb)
    · intro h0
      rw [if_neg h0]
      constructor
      · exact tb_lor_right _ _ _ (tb_lor_right _ _ _
          (tb_lor_right _ _ _ (by decide)))
      · intro b hb
        exact tb_lor_right _ _ _ (tb_lor_right _ _ _ (tb_lor_left _ _ _ hb))
    · refine tb_lor_both _ _ _ hbase31 (tb_lor_both _ _ _
        (tb_lor_both _ _ _ (tb_lor_both _ _ _ (by decide)
          (tb_small (typeToReg_lt ep.ty) (by norm_num)))
          (tb_small hshift26 (by norm_num))) ?_)
      split
      · exact tb_small (n := 2) (by simpa using ep0Size_lt ep.len) (by norm_num)
      · exact tb_lor_both _ _ _ (tb_small (n := 15) (by simpa using hl) (by norm_num))
          (by decide)
    · intro hact
      rw [epInDisable_acts, if_pos hact]
      exact List.mem_singleton_self _
  · intro hd
    have hbase31 : ((epOutDisable s ep.num).1.doepctl ep.num).testBit 31
        = false := by
      rw [epOutDisable_doepctl]
      split
      · decide
      · rename_i h
        simpa using h
    rw [epActivate_dout_doepctl cfg s ep hd,
      epActivate_dout_daintmsk cfg s ep hd]
    refine ⟨?_, ?_, ?_, ?_, ?_, ?_, ?_⟩
    · exact tb_lor_right _ _ _ (tb_one_shift_self (ep.num + 16))
    · split
      · exact tb_lor_left _ _ _ (tb_lor_right _ _ _ (tb_lor_left _ _ _
          (by decide)))
      · exact tb_lor_left _ _ _ (tb_lor_left _ _ _ (tb_lor_right _ _ _
          (tb_lor_left _ _ _ (by decide))))
    · split
      · exact tb_lor_left _ _ _ (tb_lor_right _ _ _ (tb_lor_right _ _ _
          (by decide)))
      · exact tb_lor_left _ _ _ (tb_lor_left _ _ _ (tb_lor_right _ _ _
          (tb_lor_right _ _ _ (by decide))))
    · intro h0 b hb
      rw [if_pos h0]
      exact tb_lor_right _ _ _ hb
    · intro h0
      rw [if_neg h0]
      exact ⟨tb_lor_right _ _ _ (by decide),
        fun b hb => tb_lor_left _ _ _ (tb_lor_right _ _ _ hb)⟩
    · split
      · exact tb_lor_both _ _ _ (tb_lor_both _ _ _ hbase31 (by decide))
          (tb_small (n := 2) (by simpa using ep0Size_lt ep.len) (by norm_num))
      · exact tb_lor_both _ _ _ (tb_lor_both _ _ _ (tb_lor_both _ _ _
          hbase31 (by decide)) (tb_small (n := 15) (by simpa using hl) (by norm_num)))
          (by decide)
    · intro hinact
      have hbase : (epOutDisable s ep.num).1.doepctl ep.num
          = s.doepctl ep.num := by
        rw [epOutDisable_doepctl, if_neg (by simp [hinact])]
      split
      · rw [hbase, field1819 _ _ (tb_small (n := 2) (by simpa using ep0Size_lt ep.len) (by norm_num))
          (tb_small (n := 2) (by simpa using ep0Size_lt ep.len) (by norm_num)),
          field1819 _ _ (by decide) (by decide)]
      · rw [hbase, field1819 _ _ (by decide) (by decide),
          field1819 _ _ (tb_small (n := 15) (by simpa using hl) (by norm_num))
            (tb_small (n := 15) (by simpa using hl) (by norm_num)),
          field1819 _ _ (by decide) (by decide)]

/-- Witness for the amended C8 at concrete inputs: activating bulk
endpoint 1 in each direction of a fresh instance unmasks it, sets `SNAK`,
programs the type bit for IN (bulk has bit 19 set), sets `USBAEP` for
OUT, and leaves the OUT `EPTYP` field unchanged. -/
theorem C8_activate_amended_witness :
    ((epActivate cfg0 st0 ⟨1, Dir.din, EpType.bulk, 64⟩).1.daintmsk).testBit 1
      = true ∧
    ((epActivate cfg0 st0 ⟨1, Dir.din, EpType.bulk, 64⟩).1.diepctl 1).testBit 27
      = true ∧
    ((epActivate cfg0 st0 ⟨1, Dir.din, EpType.bulk, 64⟩).1.diepctl 1).testBit 19
      = true ∧
    ((epActivate cfg0 st0 ⟨1, Dir.dout, EpType.bulk, 64⟩).1.doepctl 1).testBit 15
      = true ∧
    ((epActivate cfg0 st0 ⟨1, Dir.dout, EpType.bulk, 64⟩).1.doepctl 1 >>> 18)
      &&& 3 = (st0.doepctl 1 >>> 18) &&& 3 :=
  ⟨((C8_activate_amended cfg0 st0 ⟨1, Dir.din, EpType.bulk, 64⟩
      (by decide) (by decide)).1 rfl).1,
   ((C8_activate_amended cfg0 st0 ⟨1, Dir.din, EpType.bulk, 64⟩
      (by decide) (by decide)).1 rfl).2.1,
   ((C8_activate_amended cfg0 st0 ⟨1, Dir.din, EpType.bulk, 64⟩
      (by decide) (by decide)).1 rfl).2.2.2.1 19 (by decide),
   ((C8_activate_amended cfg0 st0 ⟨1, Dir.dout, EpType.bulk, 64⟩
      (by decide) (by decide)).2 rfl).2.2.1,
   ((C8_activate_amended cfg0 st0 ⟨1, Dir.dout, EpType.bulk, 64⟩
      (by decide) (by decide)).2 rfl).2.2.2.2.2.2 (by decide)⟩

/-!  Receive-path packet servicing (`_read_packet` / `_copy_rxfifo`). -/

/-- `PKTSTS` field of a popped `GRXSTSP` word (mask `0x1E0000`,
position 17). -/
def pktstsOf (status : Nat) : Nat := (status &&& 0x1E0000) >>> 17

/-- `BCNT` field of a popped `GRXSTSP` word (mask `0x7FF0`, position 4). -/
def bcntOf (status : Nat) : Nat := (status &&& 0x7FF0) >>> 4

/-- The word-copy loop of `_copy_rxfifo`: `buf32[i] = fifo32[i]`, where
each FIFO read pops the next receive word. -/
def copyLoop (s : DevState) (buf : Nat) : Nat → DevState
  | 0 => s
  | i + 1 =>
    let s2 := copyLoop s buf i
    { s2 with mem := Function.update s2.mem (buf + i) (s.rxWords.getD i 0) }

/-- `_copy_rxfifo(usbdev, buf, len)`: copy `(len + 3) / 4` words from the
receive FIFO into the buffer. -/
def copyRxfifo (s : DevState) (buf len : Nat) : DevState :=
  let count := (len + 3) / 4
  let s2 := copyLoop s buf count
  { s2 with rxWords := s2.rxWords.drop count }

/-- `_read_packet(st_ep)`: pop one status word from `GRXSTSP`.  On a
data-update or setup-update status (`DWC2_PKTSTS_DATA_UPDT = 2`,
`DWC2_PKTSTS_SETUP_UPDT = 6`) copy the payload into the registered OUT
buffer, and — only when `STM32_USB_OTG_CID_1x` is NOT defined — signal
TR_COMPLETE immediately for a non-zero-length endpoint-0 packet (CID 2x
does not signal `SETUP_COMP` for those).  On a transfer-complete or
setup-complete status (`XFER_COMP = 3`, `SETUP_COMP = 4`) raise
TR_COMPLETE without copying. -/
def readPacket (cfg : Cfg) (s : DevState) (ep : EpCtx) : DevState × List Act :=
  let status := s.grxstsr.headD 0
  let s0 := { s with grxstsr := s.grxstsr.tail }
  if pktstsOf status = 2 ∨ pktstsOf status = 6 then
    let s1 := copyRxfifo s0 (s0.outBuf ep.num) (bcntOf status)
    if cfg.cid1x = false ∧ ep.num = 0 ∧ bcntOf status ≠ 0 then
      (s1, [Act.epcb ep.num Dir.dout Ev.trComplete])
    else (s1, [])
  else if pktstsOf status = 3 ∨ pktstsOf status = 4 then
    (s0, [Act.epcb ep.num Dir.dout Ev.trComplete])
  else (s0, [])

/-- Words copied by the loop land at consecutive addresses, reading the
receive FIFO in order. -/
theorem copyLoop_mem (s : DevState) (buf : Nat) :
    ∀ n i, i < n → (copyLoop s buf n).mem (buf + i) = s.rxWords.getD i 0 := by
  intro n
  induction n with
  | zero => intro i hi; omega
  | succ n ih =>
    intro i hi
    simp only [copyLoop]
    by_cases hin : i = n
    · subst hin
      simp [Function.update_same]
    · rw [Function.update_noteq (by omega)]
      exact ih i (by omega)

/-- Counterexample to C9 as stated: on a variant where
`STM32_USB_OTG_CID_1x` is not defined (CID 2x, ESP32, EFM32), a
setup-update status word of length 8 for control endpoint 0 immediately
raises TR_COMPLETE — the claim says this pop raises no event.  The status
word `786560 = (6 << 17) | (8 << 4)` encodes `SETUP_UPDT`, byte count 8,
endpoint 0. -/
theorem C9_setup_stage_counterexample :
    (readPacket ⟨4, 1280, 128, false, false, 4⟩
      { st0 with grxstsr := [786560], rxWords := [11, 22] }
      ⟨0, Dir.dout, EpType.control, 64⟩).2 =
      [Act.epcb 0 Dir.dout Ev.trComplete] := by
  decide

/-- C9 (amended): on CID 1x variants, when `_read_packet` on control
endpoint 0 pops a setup-update status of length 8 it copies the two
payload words from the receive FIFO into the registered OUT buffer and
raises no event; a subsequently popped setup-complete status (length 0)
raises exactly one TR_COMPLETE for endpoint 0. -/
theorem C9_setup_stage_amended (cfg : Cfg) (s : DevState) (ep : EpCtx)
    (hcid : cfg.cid1x = true) (hn : ep.num = 0)
    (hq6 : pktstsOf (s.grxstsr.headD 0) = 6)
    (hq8 : bcntOf (s.grxstsr.headD 0) = 8)
    (hq4 : pktstsOf ((readPacket cfg s ep).1.grxstsr.headD 0) = 4) :
    (readPacket cfg s ep).2 = [] ∧
    (∀ i, i < 2 → (readPacket cfg s ep).1.mem (s.outBuf 0 + i)
        = s.rxWords.getD i 0) ∧
    (readPacket cfg (readPacket cfg s ep).1 ep).2 =
      [Act.epcb 0 Dir.dout Ev.trComplete] := by
  have hstep1 : readPacket cfg s ep =
      (copyRxfifo { s with grxstsr := s.grxstsr.tail }
        (s.outBuf ep.num) 8, []) := by
    simp only [readPacket]
    rw [if_pos (Or.inr hq6), if_neg (by simp [hcid]), hq8]
  refine ⟨by rw [hstep1], ?_, ?_⟩
  · intro i hi
    rw [hstep1, hn]
    show (copyRxfifo { s with grxstsr := s.grxstsr.tail }
      (s.outBuf 0) 8).mem (s.outBuf 0 + i) = s.rxWords.getD i 0
    simp only [copyRxfifo]
    exact copyLoop_mem _ _ 2 i hi
  · have h2 : ¬ (pktstsOf ((readPacket cfg s ep).1.grxstsr.headD 0) = 2 ∨
        pktstsOf ((readPacket cfg s ep).1.grxstsr.headD 0) = 6) := by
      rw [hq4]
      simp
    simp only [readPacket, hn]
    rw [if_neg (by simpa [readPacket, hn] using h2),
      if_pos (Or.inr (by simpa [readPacket, hn] using hq4))]

/-- A concrete receive state for the C9 witness: status words
`SETUP_UPDT/len 8` (786560) then `SETUP_COMP/len 0` (524288), payload
words 11 and 22. -/
def stC9 : DevState :=
  { st0 with grxstsr := [786560, 524288], rxWords := [11, 22] }

/-- Witness for the amended C9 on a concrete SETUP stage. -/
theorem C9_setup_stage_amended_witness :
    (readPacket cfg0 stC9 ⟨0, Dir.dout, EpType.control, 64⟩).2 = [] ∧
    (readPacket cfg0 stC9 ⟨0, Dir.dout, EpType.control, 64⟩).1.mem
      (stC9.outBuf 0 + 0) = stC9.rxWords.getD 0 0 ∧
    (readPacket cfg0
      (readPacket cfg0 stC9 ⟨0, Dir.dout, EpType.control, 64⟩).1
      ⟨0, Dir.dout, EpType.control, 64⟩).2 =
      [Act.epcb 0 Dir.dout Ev.trComplete] :=
  ⟨(C9_setup_stage_amended cfg0 stC9 ⟨0, Dir.dout, EpType.control, 64⟩
      (by decide) (by decide) (by decide) (by decide) (by decide)).1,
   (C9_setup_stage_amended cfg0 stC9 ⟨0, Dir.dout, EpType.control, 64⟩
      (by decide) (by decide) (by decide) (by decide) (by decide)).2.1 0
      (by decide),
   (C9_setup_stage_amended cfg0 stC9 ⟨0, Dir.dout, EpType.control, 64⟩
      (by decide) (by decide) (by decide) (by decide) (by decide)).2.2⟩

/-!  Per-endpoint servicing (`_usbdev_ep_esr`) and the interrupt
dispatcher (`_isr_common` / `_isr_ep`). -/

/-- `_usbdev_ep_esr(ep)`.  IN: with DMA, a pending `XFRC` (bit 0) is
acknowledged and TR_COMPLETE raised for non-zero endpoints; without DMA a
pending `TXFE` (bit 7) re-masks the endpoint in `DIEPEMPMSK` and raises
TR_COMPLETE.  OUT: with the receive FIFO non-empty and naming this
endpoint (no DMA) the packet is read; otherwise a pending `XFRC` is
acknowledged and, with DMA, TR_COMPLETE raised.  In all cases
`GAHBCFG.GINT` is set again before returning. -/
def epEsrCore (cfg : Cfg) (s : DevState) (ep : EpCtx) : DevState × List Act :=
  match ep.dir with
  | Dir.din =>
    if (s.diepint ep.num).testBit 0 = true ∧ cfg.usesDma = true then
      let v := s.diepint ep.num &&& compl32 1
      let s1 := { s with diepint := Function.update s.diepint ep.num v }
      if ep.num ≠ 0 then (s1, [Act.epcb ep.num Dir.din Ev.trComplete])
      else (s1, [])
    else if (s.diepint ep.num).testBit 7 then
      let s1 := { s with diepempmsk := s.diepempmsk &&& compl32 (1 <<< ep.num) }
      (s1, [Act.epcb ep.num Dir.din Ev.trComplete])
    else (s, [])
  | Dir.dout =>
    if s.gintsts.testBit 4 = true ∧ (s.grxstsr.headD 0) &&& 0xF = ep.num ∧
        cfg.usesDma = false then
      readPacket cfg s ep
    else if (s.doepint ep.num).testBit 0 then
      let v := s.doepint ep.num &&& compl32 1
      let s1 := { s with doepint := Function.update s.doepint ep.num v }
      if cfg.usesDma then (s1, [Act.epcb ep.num Dir.dout Ev.trComplete])
      else (s1, [])
    else (s, [])

/-- The trailing `GAHBCFG |= GINT` of `_usbdev_ep_esr`, applied to the
branch part above. -/
def usbdevEpEsr (cfg : Cfg) (s : DevState) (ep : EpCtx) : DevState × List Act :=
  ({ (epEsrCore cfg s ep).1 with
      gahbcfg := (epEsrCore cfg s ep).1.gahbcfg ||| 1 },
   (epEsrCore cfg s ep).2)

@[simp] theorem usbdevEpEsr_gahbcfg (cfg : Cfg) (s : DevState) (ep : EpCtx) :
    (usbdevEpEsr cfg s ep).1.gahbcfg =
      (epEsrCore cfg s ep).1.gahbcfg ||| 1 := rfl

/-- `bitarithm_lsb`: index of the least significant set bit (registers
are 32-bit). -/
def lsbIdx (n : Nat) : Nat :=
  (((List.range 32).find? (fun i => n.testBit i)).getD 0)

/-- `_isr_ep(usbdev)`: the top 16 bits of `DAINT` are OUT endpoints, the
bottom 16 IN endpoints; deliver an ESR event for the lowest pending one. -/
def isrEp (cfg : Cfg) (s : DevState) : List Act :=
  if s.daint ≠ 0 then
    if lsbIdx s.daint ≥ 16 then
      [Act.epcb (lsbIdx s.daint - 16) Dir.dout Ev.esrEv]
    else [Act.epcb (lsbIdx s.daint) Dir.din Ev.esrEv]
  else []

/-- `_isr_common(usbdev)`: read `GINTSTS` once; if non-zero, service the
receive-FIFO-not-empty condition (no DMA), else a pending endpoint
interrupt, else deliver a device-level ESR event — and then CLEAR
`GAHBCFG.GINT` before returning. -/
def isrCommon (cfg : Cfg) (s : DevState) : DevState × List Act :=
  if s.gintsts ≠ 0 then
    let acts :=
      if s.gintsts.testBit 4 = true ∧ cfg.usesDma = false then
        [Act.epcb ((s.grxstsr.headD 0) &&& 0xF) Dir.dout Ev.esrEv]
      else if s.gintsts &&& ((1 <<< 19) ||| (1 <<< 18)) ≠ 0 then
        isrEp cfg s
      else [Act.cb Ev.esrEv]
    ({ s with gahbcfg := s.gahbcfg &&& compl32 1 }, acts)
  else (s, [])

/-- Counterexample to C6 as stated: with only the session-request flag
pending and `GAHBCFG.GINT` set at entry, the dispatcher returns with the
global-interrupt-enable bit CLEARED, not set — `_isr_common` ends every
serviced branch with `GAHBCFG &= ~GINT`. -/
theorem C6_gint_counterexample :
    ((isrCommon cfg0 { st0 with gintsts := 1 <<< 30, gahbcfg := 1 }).1.gahbcfg).testBit 0
      = false := by
  decide

/-- C6 (amended): in every branch taken for a non-zero status the
dispatcher clears `GAHBCFG.GINT` before returning (a reentrancy guard);
the bit is re-asserted by the event-service handlers — both `_usbdev_esr`
and `_usbdev_ep_esr` set it again unconditionally before they return. -/
theorem C6_gint_amended :
    (∀ (cfg : Cfg) (s : DevState), s.gintsts ≠ 0 →
      ((isrCommon cfg s).1.gahbcfg).testBit 0 = false) ∧
    (∀ (cfg : Cfg) (s : DevState),
      ((usbdevEsr cfg s).1.gahbcfg).testBit 0 = true) ∧
    (∀ (cfg : Cfg) (s : DevState) (ep : EpCtx),
      ((usbdevEpEsr cfg s ep).1.gahbcfg).testBit 0 = true) := by
  refine ⟨?_, ?_, ?_⟩
  · intro cfg s h
    simp only [isrCommon, if_pos h]
    simp only [Nat.testBit_and]
    have : (compl32 1).testBit 0 = false := by decide
    simp [this]
  · intro cfg s
    rw [usbdevEsr_gahbcfg]
    exact tb_lor_right _ _ _ (by decide)
  · intro cfg s ep
    rw [usbdevEpEsr_gahbcfg]
    exact tb_lor_right _ _ _ (by decide)

/-- Witness for the amended C6 at concrete inputs. -/
theorem C6_gint_amended_witness :
    ((isrCommon cfg0 { st0 with gintsts := 1 <<< 30, gahbcfg := 1 }).1.gahbcfg).testBit 0
      = false ∧
    ((usbdevEsr cfg0 st0).1.gahbcfg).testBit 0 = true ∧
    ((usbdevEpEsr cfg0 st0 ⟨1, Dir.din, EpType.bulk, 64⟩).1.gahbcfg).testBit 0
      = true :=
  ⟨C6_gint_amended.1 cfg0 { st0 with gintsts := 1 <<< 30, gahbcfg := 1 }
     (by decide),
   C6_gint_amended.2.1 cfg0 st0,
   C6_gint_amended.2.2 cfg0 st0 ⟨1, Dir.din, EpType.bulk, 64⟩⟩
